import Mathlib

/-!
Verification development for the log-analytics pipeline.

Shallow embedding of the Go sources:
- Go `map[string]int64` (and other string-keyed maps) are embedded as
  association lists (`Alist`) with Go map read/insert semantics: a read of a
  missing key yields the zero value, an insert replaces an existing entry.
  The iteration order of a Go map is not observable through lookups, so the
  association order is an artifact of the embedding.
- Go `int64` arithmetic wraps around (two's complement); `wrap64` reduces an
  unbounded integer into the int64 range the way Go's `+` does.
- Go `time.Time` values are embedded as instants: integer nanoseconds since
  the Unix epoch. `UTC()` does not change the instant; `Truncate` rounds down
  (the offset between Go's zero time and the Unix epoch is a whole number of
  days, so truncation to minute/hour boundaries agrees with truncation of
  epoch nanoseconds).
- Fallible operations return `Except`/`Option`; Go `panic` outcomes are
  explicit constructors.
-/

namespace LogAnalytics

/-- Two's-complement wraparound of Go `int64` arithmetic: reduce an unbounded
integer into `[-2^63, 2^63)` modulo `2^64`. -/
def wrap64 (x : Int) : Int := (x + 2 ^ 63) % 2 ^ 64 - 2 ^ 63

/-- Go `int64` addition (wraps on overflow). -/
def wadd (a b : Int) : Int := wrap64 (a + b)

/-- Association list standing in for a Go `map[string]V`. -/
abbrev Alist (V : Type) : Type := List (String × V)

/-- Go map read `m[k]` returning `Option`: `none` when the key is absent. -/
def alookup {V : Type} (m : Alist V) (k : String) : Option V :=
  match m with
  | [] => none
  | (k', v) :: rest => if k = k' then some v else alookup rest k

/-- Go map write `m[k] = v`: replace the entry when present, append otherwise. -/
def aupsert {V : Type} (m : Alist V) (k : String) (v : V) : Alist V :=
  match m with
  | [] => [(k, v)]
  | (k', v') :: rest => if k = k' then (k, v) :: rest else (k', v') :: aupsert rest k v

/-- The keys of a map snapshot. -/
def akeys {V : Type} (m : Alist V) : List String := m.map Prod.fst

/-- Go read `m[k]` of a `map[string]int64`: missing keys read as zero. -/
def ilookup (m : Alist Int) (k : String) : Int := (alookup m k).getD 0

-- ---------------------------------------------------------------------------
-- Time model: instants as nanoseconds since the Unix epoch.
-- ---------------------------------------------------------------------------

/-- Instant: nanoseconds since the Unix epoch (Go `time.Time`, location
erased — only instants are observable through `UTC()`-normalized code). -/
abbrev Instant := Int

def nsPerSecond : Int := 1000000000
def nsPerMinute : Int := 60 * nsPerSecond
def nsPerHour : Int := 3600 * nsPerSecond

/-- Go `t.Truncate(d)`: round down to a multiple of `d` since the zero time.
The zero-time→epoch offset (62135596800 s) is a whole number of hours, so
rounding down relative to the epoch is identical for minute/hour durations. -/
def truncTime (t : Instant) (d : Int) : Instant := (t.ediv d) * d

/-- Seconds since the epoch of an instant (rounding down). -/
def secondsOf (t : Instant) : Int := t.ediv nsPerSecond

/-- Go `t.UTC().Minute()`: minute of the hour, 0–59. -/
def minuteOfHour (t : Instant) : Int := ((secondsOf t).ediv 60).emod 60

/-- Go `t.UTC().Hour()`: hour of the day, 0–23. -/
def hourOfDay (t : Instant) : Int := ((secondsOf t).ediv 3600).emod 24

/-- Decimal digits of a natural number (`Nat.repr`-backed). -/
def natStr (n : Nat) : String := Nat.repr n

/-- Zero-padded two-digit decimal form of `n` (0 ≤ n < 100 in all uses). -/
def pad2 (n : Nat) : String := if n < 10 then "0" ++ natStr n else natStr n

/-- Zero-padded four-digit decimal form of `n`. -/
def pad4 (n : Nat) : String :=
  if n < 10 then "000" ++ natStr n
  else if n < 100 then "00" ++ natStr n
  else if n < 1000 then "0" ++ natStr n
  else natStr n

/-- Civil date (year, month, day) from days since the Unix epoch, proleptic
Gregorian — the arithmetic Go's `time` package performs when formatting. -/
def civilFromDays (z0 : Int) : Int × Nat × Nat :=
  let z : Int := z0 + 719468
  let era : Int := z.ediv 146097
  let doe : Nat := (z - era * 146097).toNat
  let yoe : Nat := (doe - doe / 1460 + doe / 36524 - doe / 146096) / 365
  let doy : Nat := doe - (365 * yoe + yoe / 4 - yoe / 100)
  let mp : Nat := (5 * doy + 2) / 153
  let d : Nat := doy - (153 * mp + 2) / 5 + 1
  let m : Nat := if mp < 10 then mp + 3 else mp - 9
  ((yoe : Int) + era * 400 + (if m ≤ 2 then 1 else 0), m, d)

/-- Format the year component (years in this system are 1–9999 CE for every
reachable input; negative years would render with a leading minus). -/
def yearStr (y : Int) : String :=
  if y < 0 then "-" ++ pad4 y.natAbs else pad4 y.toNat

/-- Go `t.UTC().Format(time.RFC3339)` for an instant with zero sub-second
part: `YYYY-MM-DDThh:mm:ssZ`. -/
def toRFC3339 (t : Instant) : String :=
  let secs := secondsOf t
  let days := secs.ediv 86400
  let sod := (secs.emod 86400).toNat
  let ymd := civilFromDays days
  yearStr ymd.1 ++ "-" ++ pad2 ymd.2.1 ++ "-" ++ pad2 ymd.2.2 ++ "T" ++
    pad2 (sod / 3600) ++ ":" ++ pad2 (sod / 60 % 60) ++ ":" ++ pad2 (sod % 60) ++ "Z"

-- ---------------------------------------------------------------------------
-- models.WindowSize
-- ---------------------------------------------------------------------------

/-- Go `models.WindowSize`: the closed enumeration actually used by the program
(`"minute"` / `"hour"`; Go's underlying type is `string`, and every other
string makes `Duration()` panic — those values are unreachable here). -/
inductive Wsize where
  | minute
  | hour
deriving DecidableEq, Repr

/-- Go `WindowSize.Duration()` in nanoseconds. -/
def Wsize.durationNs : Wsize → Int
  | .minute => nsPerMinute
  | .hour => nsPerHour

/-- Go `WindowSize.FormatWindowStart`: UTC-truncate, then format
`20060102T1504Z` (minute) or `20060102T15Z` (hour). -/
def Wsize.formatWindowStart (w : Wsize) (t : Instant) : String :=
  let tt := truncTime t w.durationNs
  let secs := secondsOf tt
  let days := secs.ediv 86400
  let sod := (secs.emod 86400).toNat
  let ymd := civilFromDays days
  let datePart := yearStr ymd.1 ++ pad2 ymd.2.1 ++ pad2 ymd.2.2
  match w with
  | .minute => datePart ++ "T" ++ pad2 (sod / 3600) ++ pad2 (sod / 60 % 60) ++ "Z"
  | .hour => datePart ++ "T" ++ pad2 (sod / 3600) ++ "Z"

/-- Go `WindowSize.BucketID`: `minute-NN` (minute of the UTC hour) or
`hour-NN` (hour of the UTC day). -/
def Wsize.bucketID (w : Wsize) (t : Instant) : String :=
  match w with
  | .minute => "minute-" ++ pad2 (minuteOfHour t).toNat
  | .hour => "hour-" ++ pad2 (hourOfDay t).toNat

-- ---------------------------------------------------------------------------
-- events.PartialInsightEvent and models.WindowAggregateResult
-- ---------------------------------------------------------------------------

/-- Go `events.PartialInsightEvent`. -/
structure PIEvent where
  customerID : String
  batchID : String
  windowStart : Instant
  windowSize : Wsize
  requestsByPath : Alist Int
  requestsByUserAgent : Alist Int
deriving DecidableEq

/-- Go `models.WindowAggregateResult`. -/
structure AggResult where
  customerID : String
  windowStart : Instant
  windowSize : Wsize
  requestsByPath : Alist Int
  requestsByUserAgent : Alist Int
deriving DecidableEq

/-- Go `models.NewEmptyWindowAggregateResult`. -/
def emptyAggResult (customerID : String) (windowStart : Instant) (windowSize : Wsize) :
    AggResult :=
  { customerID := customerID, windowStart := windowStart, windowSize := windowSize,
    requestsByPath := [], requestsByUserAgent := [] }

/-- Go `WindowAggregateResult.IsNewAggregate`: both count maps empty. -/
def isNewAggregate (a : AggResult) : Bool :=
  a.requestsByPath.length = 0 && a.requestsByUserAgent.length = 0

-- ---------------------------------------------------------------------------
-- aggregators.aggregateRolluper.Rollup
-- ---------------------------------------------------------------------------

/-- One merge loop of `Rollup`: for each `k, v` of the partial map, execute
`agg[k] += v` (Go int64 wraparound addition, missing keys read as zero). -/
def mergeCounts (agg part : Alist Int) : Alist Int :=
  part.foldl (fun m kv => aupsert m kv.1 (wadd (ilookup m kv.1) kv.2)) agg

/-- Go `aggregateRolluper.Rollup`: validate that identity fields match, then
merge `RequestsByPath` and `RequestsByUserAgent` into the aggregate.
(The Go code iterates each map in unspecified order; every key is touched
exactly once, so the association-list order chosen here is immaterial.) -/
def rollup (agg : AggResult) (part : PIEvent) : Except String AggResult :=
  if agg.customerID ≠ part.customerID then .error "customerID mismatch"
  else if agg.windowStart ≠ part.windowStart then .error "windowStart mismatch"
  else if agg.windowSize ≠ part.windowSize then .error "windowSize mismatch"
  else .ok { agg with
              requestsByPath := mergeCounts agg.requestsByPath part.requestsByPath,
              requestsByUserAgent :=
                mergeCounts agg.requestsByUserAgent part.requestsByUserAgent }

/-- Fold `Rollup` over a list of events (delivery order = list order),
aborting on the first identity-mismatch error. -/
def foldRollup (agg : AggResult) (l : List PIEvent) : Except String AggResult :=
  match l with
  | [] => .ok agg
  | e :: rest =>
    match rollup agg e with
    | .error m => .error m
    | .ok agg' => foldRollup agg' rest

/-- Read the path counter at key `k` through the `Except` of `foldRollup`. -/
def pathCountOf (r : Except String AggResult) (k : String) : Except String Int :=
  r.map (fun a => ilookup a.requestsByPath k)

/-- Read the user-agent counter at key `k` through the `Except` of `foldRollup`. -/
def uaCountOf (r : Except String AggResult) (k : String) : Except String Int :=
  r.map (fun a => ilookup a.requestsByUserAgent k)

/-- Key-wise exact (unwrapped) sum of the events' path-count maps. -/
def sumPath (l : List PIEvent) (k : String) : Int :=
  (l.map (fun e => ilookup e.requestsByPath k)).sum

/-- Key-wise exact (unwrapped) sum of the events' user-agent-count maps. -/
def sumUA (l : List PIEvent) (k : String) : Int :=
  (l.map (fun e => ilookup e.requestsByUserAgent k)).sum

-- ---------------------------------------------------------------------------
-- streams.PartitionedQueue: partitionIndex (FNV-1a routing)
-- ---------------------------------------------------------------------------

/-- UTF-8 encoding of one code point (Go `[]byte(string)` conversion). -/
def encChar (c : Char) : List Nat :=
  let n := c.toNat
  if n < 128 then [n]
  else if n < 2048 then [192 + n / 64, 128 + n % 64]
  else if n < 65536 then [224 + n / 4096, 128 + n / 64 % 64, 128 + n % 64]
  else [240 + n / 262144, 128 + n / 4096 % 64, 128 + n / 64 % 64, 128 + n % 64]

/-- Go `[]byte(key)`: the UTF-8 bytes of a string. -/
def strBytes (s : String) : List Nat := s.data.flatMap encChar

/-- FNV-1a 32-bit hash (`hash/fnv.New32a` then `Write`): for each byte,
XOR into the state then multiply by the FNV prime, modulo 2^32. -/
def fnv32a (bs : List Nat) : Nat :=
  bs.foldl (fun h b => ((h ^^^ b) * 16777619) % 4294967296) 2166136261

/-- Go `hash.Sum(nil)`: the 4 digest bytes, appended big-endian. -/
def fnvDigest (v : Nat) : List Nat := [v / 16777216 % 256, v / 65536 % 256, v / 256 % 256, v % 256]

/-- Go `binary.LittleEndian.Uint32` of a 4-byte slice. -/
def leUint32 (bs : List Nat) : Nat :=
  match bs with
  | [b0, b1, b2, b3] => b0 + b1 * 256 + b2 * 65536 + b3 * 16777216
  | _ => 0

/-- Go `streams.partitionIndex`: FNV-1a 32-bit hash of the key, digest read
little-endian, modulo the partition count. -/
def partitionIndex (key : String) (n : Nat) : Nat :=
  leUint32 (fnvDigest (fnv32a (strBytes key))) % n

/-- The partition key the producer computes for an event
(`partialInsightProducer.Produce`): `event.WindowSize.BucketID(event.WindowStart)`. -/
def producerPartitionKey (e : PIEvent) : String := e.windowSize.bucketID e.windowStart

/-- The lane `PartitionedQueue.Publish` selects for an event produced by
`partialInsightProducer.Produce`, with `n` partitions. -/
def laneOf (e : PIEvent) (n : Nat) : Nat := partitionIndex (producerPartitionKey e) n

-- ---------------------------------------------------------------------------
-- path/filepath (Unix rules), as used by filestorages.fileStorage
-- ---------------------------------------------------------------------------

/-- Is `pre` a leading segment of `l`? (kernel-reducible `strings.HasPrefix`
on the character level). -/
def listPre : List Char → List Char → Bool
  | [], _ => true
  | _ :: _, [] => false
  | a :: as, b :: bs => a = b && listPre as bs

/-- Go `strings.HasPrefix s pre`. -/
def strHasPre (s pre : String) : Bool := listPre pre.data s.data

/-- Split on `'/'` (Go `strings.Split(s, "/")` semantics: empty fields kept). -/
def splitSlashGo (cur : List Char) : List Char → List String
  | [] => [String.mk cur.reverse]
  | c :: rest =>
    if c = '/' then String.mk cur.reverse :: splitSlashGo [] rest
    else splitSlashGo (c :: cur) rest

/-- Slash-separated fields of a string. -/
def splitSlash (s : String) : List String := splitSlashGo [] s.data

/-- Join strings with a separator. -/
def joinWith (sep : String) : List String → String
  | [] => ""
  | [x] => x
  | x :: y :: xs => x ++ sep ++ joinWith sep (y :: xs)

/-- Go `filepath.IsAbs` on Unix: the path begins with a slash. -/
def isAbs (p : String) : Bool :=
  match p.data with
  | '/' :: _ => true
  | _ => false

/-- One step of `filepath.Clean`'s element processing: skip empty and `.`
elements; on `..` pop the last kept element unless there is nothing left to
pop (keep the `..` for relative paths, drop it at the root of absolute
paths); keep every other element. -/
def cleanStep (abs : Bool) (st : List String) (c : String) : List String :=
  if c = "" ∨ c = "." then st
  else if c = ".." then
    if st ≠ [] ∧ st.getLast? ≠ some ".." then st.dropLast
    else if abs then st else st ++ [".."]
  else st ++ [c]

/-- Go `filepath.Clean` (Unix): Go's algorithm works byte-by-byte; element-wise
processing of the slash-separated components is equivalent. -/
def cleanPath (p : String) : String :=
  if p = "" then "." else
  let abs := isAbs p
  let st := (splitSlash p).foldl (cleanStep abs) []
  if abs then "/" ++ joinWith "/" st
  else if st = [] then "." else joinWith "/" st

/-- Go `filepath.Join` of two elements: join the non-empty elements with a slash
and `Clean` the result. -/
def joinPath (a b : String) : String :=
  if a = "" ∧ b = "" then ""
  else if a = "" then cleanPath b
  else if b = "" then cleanPath a
  else cleanPath (a ++ "/" ++ b)

/-- Go `filepath.Abs` for the call sites of `validateKey`: every argument there
is already absolute whenever the configured root is absolute (the constructor
`NewFileStorage` makes it so), and `Abs` of an absolute path is `Clean`.
(For a relative argument Go would prepend the process working directory;
that case is unreachable from an absolute root.) -/
def absPath (p : String) : String := cleanPath p

/-- Path elements of a cleaned path: slash-separated components, the root
slash and a bare `.` contributing none. -/
def compsOf (p : String) : List String :=
  if p = "." then [] else (splitSlash p).filter (· ≠ "")

/-- Drop the common leading components of two component lists. -/
def dropCommon (a b : List String) : List String × List String :=
  match a, b with
  | x :: a', y :: b' => if x = y then dropCommon a' b' else (x :: a', y :: b')
  | _, _ => (a, b)

/-- Go `filepath.Rel(base, target)` for the cases reachable from `validateKey`
(both arguments cleaned and of the same absoluteness): `..` for every base
component past the common prefix, then the remaining target components.
`none` models Go's error when one path is absolute and the other relative. -/
def relPath (base targ : String) : Option String :=
  let b := cleanPath base
  let t := cleanPath targ
  if b = t then some "." else
  if isAbs b ≠ isAbs t then none else
  let rem := dropCommon (compsOf b) (compsOf t)
  some (joinWith "/" (rem.1.map (fun _ => "..") ++ rem.2))

-- ---------------------------------------------------------------------------
-- filestorages.fileStorage
-- ---------------------------------------------------------------------------

/-- The error values of the `filestorages` package. -/
inductive FsErr where
  | notFound
  | alreadyExists
  | invalidKey
deriving DecidableEq

instance {ε α : Type} [DecidableEq ε] [DecidableEq α] : DecidableEq (Except ε α) := fun a b =>
  match a, b with
  | .error e, .error e' => if h : e = e' then .isTrue (by rw [h]) else .isFalse (by simp [h])
  | .ok v, .ok v' => if h : v = v' then .isTrue (by rw [h]) else .isFalse (by simp [h])
  | .error _, .ok _ => .isFalse (by simp)
  | .ok _, .error _ => .isFalse (by simp)

/-- File contents. -/
abbrev Blob := List Nat

/-- The file system under the configured root: a finite map from absolute
paths to file contents. (Directory creation and I/O faults of the underlying
OS are not modelled; the semantics here is the success behaviour of the
temp-file/rename/link sequences.) -/
abbrev FsState := Alist Blob

/-- Go `fileStorage.validateKey`, check for check. -/
def validateKey (root key : String) : Except FsErr Unit :=
  if key = "" then .error .invalidKey
  else if isAbs key then .error .invalidKey
  else
    let cleanK := cleanPath key
    if cleanK = ".." ∨ cleanK = "." then .error .invalidKey
    else if strHasPre cleanK ".." then .error .invalidKey
    else
      let fullPath := joinPath root cleanK
      match relPath (absPath root) (absPath fullPath) with
      | none => .error .invalidKey
      | some rel => if strHasPre rel ".." then .error .invalidKey else .ok ()

/-- Go `fileStorage.Put`: validate the key, then write under
`Join(root, Clean(key))` — atomically replacing when `allowOverwrite`, and
failing with `AlreadyExists` when the destination exists otherwise.
Returns the `PutResult` key and the new file-system state. -/
def fsPut (root : String) (st : FsState) (key : String) (content : Blob)
    (allowOverwrite : Bool) : Except FsErr (String × FsState) :=
  match validateKey root key with
  | .error e => .error e
  | .ok _ =>
    let finalPath := joinPath root (cleanPath key)
    if allowOverwrite then .ok (key, aupsert st finalPath content)
    else
      match alookup st finalPath with
      | some _ => .error .alreadyExists
      | none => .ok (key, aupsert st finalPath content)

/-- Go `fileStorage.Get`: validate the key, then open `Join(root, key)`;
`NotFound` when the file does not exist. -/
def fsGet (root : String) (st : FsState) (key : String) : Except FsErr Blob :=
  match validateKey root key with
  | .error e => .error e
  | .ok _ =>
    match alookup st (joinPath root key) with
    | none => .error .notFound
    | some b => .ok b

-- ---------------------------------------------------------------------------
-- String helpers used by the ingestion/summarization code
-- ---------------------------------------------------------------------------

/-- Characters Go `strings.TrimSpace` removes (`unicode.IsSpace`): the ASCII
white space plus NEL and NBSP. (The exotic Unicode space classes beyond these
are trimmed by Go too; no claim here depends on them.) -/
def isSpaceGo (c : Char) : Bool :=
  c = ' ' ∨ c = '\t' ∨ c = '\n' ∨ c = '\x0b' ∨ c = '\x0c' ∨ c = '\r' ∨
    c = '\x85' ∨ c = '\xa0'

/-- Go `strings.TrimSpace`. -/
def trimStr (s : String) : String :=
  String.mk (((s.data.dropWhile isSpaceGo).reverse.dropWhile isSpaceGo).reverse)

/-- ASCII uppercasing of one character (`strings.ToUpper` for the ASCII
range; Unicode case mapping beyond ASCII is not modelled — method strings
are ASCII). -/
def upChar (c : Char) : Char :=
  if 'a' ≤ c ∧ c ≤ 'z' then Char.ofNat (c.toNat - 32) else c

/-- ASCII lowercasing of one character (`strings.ToLower` likewise). -/
def lowChar (c : Char) : Char :=
  if 'A' ≤ c ∧ c ≤ 'Z' then Char.ofNat (c.toNat + 32) else c

/-- Go `strings.ToUpper` (ASCII). -/
def toUpperStr (s : String) : String := String.mk (s.data.map upChar)

/-- Go `strings.ToLower` (ASCII). -/
def toLowerStr (s : String) : String := String.mk (s.data.map lowChar)

/-- Does `needle` occur inside `hay` (character level)? -/
def listInfix (needle : List Char) : List Char → Bool
  | [] => listPre needle []
  | c :: rest => listPre needle (c :: rest) || listInfix needle rest

/-- Go `strings.Contains`. -/
def containsSub (s sub : String) : Bool := listInfix sub.data s.data

-- ---------------------------------------------------------------------------
-- models.LogEntry / models.LogBatch / models.BatchSummary
-- ---------------------------------------------------------------------------

/-- Go `models.LogEntry`. -/
structure LogEntry where
  receivedAt : Instant
  method : String
  path : String
  userAgent : String
deriving DecidableEq

/-- Go `models.LogBatch`. -/
structure LogBatch where
  batchID : String
  customerID : String
  entries : List LogEntry
deriving DecidableEq

/-- Go `models.WindowAggregates` (the summarizer's in-progress `windowCounts`
has the same two maps). -/
structure WindowCounts where
  pathCounts : Alist Int
  uaCounts : Alist Int
deriving DecidableEq

/-- Go `models.BatchSummary`. -/
structure BatchSummary where
  batchID : String
  customerID : String
  windowSize : Wsize
  byWindowStart : Alist WindowCounts
deriving DecidableEq

-- ---------------------------------------------------------------------------
-- ingestors.batchSummarizer.Summarize
-- ---------------------------------------------------------------------------

/-- Go `batchSummarizer.normalizeUserAgent`: the family name returned by the
external user-agent parser (`useragent.Parse(ua).Name`, here the parameter
`uaFam`), or the original string when the family is empty. -/
def normalizeUA (uaFam : String → String) (ua : String) : String :=
  if uaFam ua ≠ "" then uaFam ua else ua

/-- The summarizer's normalized path key:
`strings.ToUpper(entry.Method) + " " + entry.Path` — note: no trimming
happens inside the summarizer. -/
def pathKeyOf (e : LogEntry) : String := toUpperStr e.method ++ " " ++ e.path

/-- The summarizer's window key: `entry.ReceivedAt.UTC().Truncate(d)`
formatted as RFC3339. -/
def windowKeyOf (w : Wsize) (t : Instant) : String :=
  toRFC3339 (truncTime t w.durationNs)

/-- One iteration of `Summarize`'s entry loop: get or create the window's
counts, then increment the path and user-agent counters (Go `++` on an
int64 map value). -/
def summarizeStep (uaFam : String → String) (w : Wsize) (m : Alist WindowCounts)
    (e : LogEntry) : Alist WindowCounts :=
  let wk := windowKeyOf w e.receivedAt
  let wc := (alookup m wk).getD ⟨[], []⟩
  let pk := pathKeyOf e
  let uk := normalizeUA uaFam e.userAgent
  aupsert m wk
    { pathCounts := aupsert wc.pathCounts pk (wadd (ilookup wc.pathCounts pk) 1),
      uaCounts := aupsert wc.uaCounts uk (wadd (ilookup wc.uaCounts uk) 1) }

/-- Go `batchSummarizer.Summarize`. The final Go loop copies the accumulated
per-window counts into the result map in sorted key order; a map's iteration
order is not observable through lookups, so the copy is the identity here. -/
def summarize (uaFam : String → String) (w : Wsize) (b : LogBatch) : BatchSummary :=
  { batchID := b.batchID, customerID := b.customerID, windowSize := w,
    byWindowStart := b.entries.foldl (summarizeStep uaFam w) [] }

/-- Read a path counter out of an in-progress window map: window key, then
path key (zero when absent — Go's map reads). -/
def wcPathCount (m : Alist WindowCounts) (wk k : String) : Int :=
  ilookup ((alookup m wk).getD ⟨[], []⟩).pathCounts k

/-- Read a user-agent counter out of an in-progress window map. -/
def wcUACount (m : Alist WindowCounts) (wk k : String) : Int :=
  ilookup ((alookup m wk).getD ⟨[], []⟩).uaCounts k

/-- Read a path counter of a summary. -/
def summaryPathCount (s : BatchSummary) (wk k : String) : Int :=
  wcPathCount s.byWindowStart wk k

/-- Read a user-agent counter of a summary. -/
def summaryUACount (s : BatchSummary) (wk k : String) : Int :=
  wcUACount s.byWindowStart wk k

-- ---------------------------------------------------------------------------
-- svcerrors.ServiceError
-- ---------------------------------------------------------------------------

/-- Go `svcerrors.ServiceError` (the wrapped `Cause` chain carries no behaviour
the claims observe and is left out). -/
structure SvcErr where
  category : String
  code : String
  message : String
  httpStatus : Nat
deriving DecidableEq

/-- Go `svcerrors.NewInvalidArgumentError`. -/
def newInvalidArgumentError (code msg : String) : SvcErr :=
  ⟨"invalid_argument", code, msg, 400⟩

/-- Go `svcerrors.NewInternalError`. -/
def newInternalError (code : String) : SvcErr :=
  ⟨"internal", code, "internal server error", 500⟩

/-- Go `svcerrors.NewResourceConflictError`. -/
def newResourceConflictError (code msg : String) : SvcErr :=
  ⟨"resource_conflict", code, msg, 409⟩

/-- Go `ingestors.errValidationFailed` (code ING_1000). -/
def errValidationFailed (msg : String) : SvcErr := newInvalidArgumentError "ING_1000" msg

/-- Go `ingestors.errLogBatchAlreadyProcessed` (code ING_1001). -/
def errLogBatchAlreadyProcessed : SvcErr :=
  newResourceConflictError "ING_1001" "log batch already processed"

/-- Go `ingestors.errInternalLogBatchStoreFailed` (code ING_9000). -/
def errInternalLogBatchStoreFailed : SvcErr := newInternalError "ING_9000"

/-- Go `ingestors.errInternalPartialInsightPublisherFailed` (code ING_9001). -/
def errInternalPublisherFailed : SvcErr := newInternalError "ING_9001"

/-- Go `aggregators.errInternalAggregateRollupFailed` (code AGG_9000). -/
def errAggregateRollupFailed : SvcErr := newInternalError "AGG_9000"

/-- Go `aggregators.errInternalAggregateResultStoreFailed` (code AGG_9001). -/
def errAggregateResultStoreFailed : SvcErr := newInternalError "AGG_9001"

-- ---------------------------------------------------------------------------
-- External collaborators of the core (stdlib JSON/time, ulid, ua parser)
-- ---------------------------------------------------------------------------

/-- A decoded JSON value, as far as `jsonObjectToLogEntry` inspects one:
a string, or anything else (the code only performs `.(string)` assertions). -/
inductive JVal where
  | str (s : String)
  | other
deriving DecidableEq

/-- A decoded JSON object (`map[string]any`). -/
abbrev JObj := Alist JVal

/-- The external pure functions the ingestion/aggregation code calls:
`encoding/json`, `time.Parse` for fixed layouts, the user-agent parser and
the ulid generator. They are outside this repository (spec §1 lists them as
external collaborators); each field is the relevant pure function. -/
structure Ext where
  /-- Go `json.Unmarshal(buf, &[]map[string]any{...})`: `none` models a decode error. -/
  jsonArr : Blob → Option (List JObj)
  /-- Go `time.Parse("2006-01-02T15:04:05.000Z", s)`. -/
  parseLayoutMs : String → Option Instant
  /-- Go `time.Parse("2006-01-02T15:04:05Z07:00", s)`. -/
  parseLayoutTz : String → Option Instant
  /-- Go `time.Parse(time.RFC3339, s)` (used by the producer on window keys). -/
  parseRFC3339 : String → Option Instant
  /-- Go `useragent.Parse(ua).Name`. -/
  uaFam : String → String
  /-- Go `ulid.Make().String()`: the fresh id this call would generate. -/
  newUlid : String
  /-- Go `json.Marshal` of a `LogBatch`. -/
  encBatch : LogBatch → Blob
  /-- Go `json.Marshal` of a `WindowAggregateResult`. -/
  encAgg : AggResult → Blob
  /-- Go `json.Unmarshal` of a stored `WindowAggregateResult`; `none` models a
  decode (or read) failure. -/
  decAgg : Blob → Option AggResult

-- ---------------------------------------------------------------------------
-- stores.logBatchStore / stores.aggregateResultStore
-- ---------------------------------------------------------------------------

/-- The key `logBatchStore.Put` builds:
`raw-batches/{customerId}/{batchId}.json` — plain interpolation, no
validation of either component. -/
def logBatchKey (b : LogBatch) : String :=
  "raw-batches/" ++ b.customerID ++ "/" ++ b.batchID ++ ".json"

/-- Go `stores` error outcomes of `logBatchStore.Put`:
`ErrLogBatchAlreadyExist`, or a wrapped cause. -/
inductive StoreErr where
  | alreadyExist
  | failed (cause : FsErr)
deriving DecidableEq

/-- Go `logBatchStore.Put`: marshal, write with `AllowOverwrite: false`, and
translate the storage's `AlreadyExists` into `ErrLogBatchAlreadyExist`;
other failures wrap the cause. Returns the new file-system state. -/
def logBatchStorePut (ext : Ext) (root : String) (st : FsState) (b : LogBatch) :
    Except StoreErr FsState :=
  match fsPut root st (logBatchKey b) (ext.encBatch b) false with
  | .error .alreadyExists => .error .alreadyExist
  | .error e => .error (.failed e)
  | .ok (_, st') => .ok st'

/-- The key `aggregateResultStore.getKey` builds:
`aggregate-results/{customerId}/{windowStartKey}.json`. -/
def aggResultKey (c : String) (w : Wsize) (t : Instant) : String :=
  "aggregate-results/" ++ c ++ "/" ++ w.formatWindowStart t ++ ".json"

/-- Go `aggregateResultStore.Get`: read and decode the stored aggregate;
`NotFound` yields a fresh empty aggregate with the identity populated; any
other failure yields Go's `(nil, err)` pair — modelled as
`(none, true)` = (nil pointer, error present). -/
def aggResultStoreGet (ext : Ext) (root : String) (st : FsState) (c : String)
    (t : Instant) (w : Wsize) : Option AggResult × Bool :=
  match fsGet root st (aggResultKey c w t) with
  | .error .notFound => (some (emptyAggResult c t w), false)
  | .error _ => (none, true)
  | .ok b =>
    match ext.decAgg b with
    | none => (none, true)
    | some a => (some a, false)

/-- Go `aggregateResultStore.Upsert`: marshal and write with
`AllowOverwrite: true`. -/
def aggResultStoreUpsert (ext : Ext) (root : String) (st : FsState) (a : AggResult) :
    Except FsErr FsState :=
  match fsPut root st (aggResultKey a.customerID a.windowSize a.windowStart)
      (ext.encAgg a) true with
  | .error e => .error e
  | .ok (_, st') => .ok st'

-- ---------------------------------------------------------------------------
-- aggregators.aggregationService.Aggregate
-- ---------------------------------------------------------------------------

/-- Outcome of one `Aggregate` call. `nilDeref` is the Go run-time panic of
dereferencing a nil `*WindowAggregateResult` (inside `IsNewAggregate`). -/
inductive AggOut where
  | done (isNewAggregate : Bool)
  | svcErr (e : SvcErr)
  | nilDeref
deriving DecidableEq

/-- Go `aggregationService.Aggregate`, statement for statement. The Go code
computes `aggregateResult.IsNewAggregate()` BEFORE checking the error of
`Get`; when `Get` failed (other than NotFound) it returned a nil pointer,
so that line panics — the `err != nil` branch returning AGG_9001 is
unreachable for get failures. -/
def aggregateSvc (ext : Ext) (root : String) (st : FsState) (e : PIEvent) :
    AggOut × FsState :=
  let g := aggResultStoreGet ext root st e.customerID e.windowStart e.windowSize
  match g.1 with
  | none => (.nilDeref, st)
  | some aggregateResult =>
    let isNew := isNewAggregate aggregateResult
    if g.2 then (.svcErr errAggregateResultStoreFailed, st)
    else
      match rollup aggregateResult e with
      | .error _ => (.svcErr errAggregateRollupFailed, st)
      | .ok agg' =>
        match aggResultStoreUpsert ext root st agg' with
        | .error _ => (.svcErr errAggregateResultStoreFailed, st)
        | .ok st' => (.done isNew, st')

-- ---------------------------------------------------------------------------
-- ingestors.ingestionService
-- ---------------------------------------------------------------------------

/-- Go `ingestors.IngestResult`. -/
structure IngestResult where
  batchID : String
  storedCount : Int
deriving DecidableEq

/-- Go `ingestionService.readWithLimit`: read at most `mx+1` bytes through an
`io.LimitReader` into a buffer of `mx+1` bytes, and fail when more than `mx`
bytes arrived. (The reader is modelled as the byte sequence it delivers; the
single `Read` returns everything available up to the limit, as a
`bytes.Reader`/fully-buffered body does.) -/
def readWithLimit (body : Blob) (mx : Nat) : Except SvcErr Blob :=
  let n := min (mx + 1) body.length
  if n > mx then .error (errValidationFailed "batch too large")
  else .ok (body.take n)

/-- Go `maxBatchBytes`. -/
def maxBatchBytes : Nat := 2 * 1024 * 1024

/-- Go `maxPathLen`. -/
def maxPathLen : Nat := 2048

/-- Go `maxUserAgentLen`. -/
def maxUserAgentLen : Nat := 1024

/-- Go `ingestionService.parseTime`: try the millisecond ISO-8601 layout, then
the offset RFC3339 layout, else a validation error. -/
def parseTimeGo (ext : Ext) (s : String) (idx : Nat) : Except SvcErr Instant :=
  match ext.parseLayoutMs s with
  | some t => .ok t
  | none =>
    match ext.parseLayoutTz s with
    | some t => .ok t
    | none =>
      .error (errValidationFailed ("item at index " ++ natStr idx ++
        ": invalid time format: " ++ s))

/-- Go `ingestionService.normalizeLogEntry`: trim path and user agent, trim and
uppercase the method. -/
def normalizeLogEntry (e : LogEntry) : LogEntry :=
  { e with
    path := trimStr e.path,
    method := toUpperStr (trimStr e.method),
    userAgent := trimStr e.userAgent }

/-- Go `ingestionService.validateLogEntry`: byte-length caps on path and user
agent (Go `len` of a string counts bytes). -/
def validateLogEntry (e : LogEntry) (idx : Nat) : Except SvcErr Unit :=
  if (strBytes e.path).length > maxPathLen then
    .error (errValidationFailed ("item at index " ++ natStr idx ++
      ": path too long: max 2048 characters"))
  else if (strBytes e.userAgent).length > maxUserAgentLen then
    .error (errValidationFailed ("item at index " ++ natStr idx ++
      ": userAgent too long: max 1024 characters"))
  else .ok ()

/-- Go `ingestionService.jsonObjectToLogEntry`: field-by-field extraction with
per-field missing/wrong-type errors, then normalization and validation. -/
def jsonObjectToLogEntry (ext : Ext) (obj : JObj) (idx : Nat) :
    Except SvcErr LogEntry :=
  match alookup obj "receivedAt" with
  | none => .error (errValidationFailed ("item at index " ++ natStr idx ++ ": missing receivedAt"))
  | some .other => .error (errValidationFailed ("item at index " ++ natStr idx ++ ": receivedAt must be a string"))
  | some (.str receivedAtStr) =>
    match parseTimeGo ext receivedAtStr idx with
    | .error e => .error e
    | .ok receivedAt =>
      match alookup obj "method" with
      | none => .error (errValidationFailed ("item at index " ++ natStr idx ++ ": missing method"))
      | some .other => .error (errValidationFailed ("item at index " ++ natStr idx ++ ": method must be a string"))
      | some (.str method) =>
        match alookup obj "path" with
        | none => .error (errValidationFailed ("item at index " ++ natStr idx ++ ": missing path"))
        | some .other => .error (errValidationFailed ("item at index " ++ natStr idx ++ ": path must be a string"))
        | some (.str path) =>
          match alookup obj "userAgent" with
          | none => .error (errValidationFailed ("item at index " ++ natStr idx ++ ": missing userAgent"))
          | some .other => .error (errValidationFailed ("item at index " ++ natStr idx ++ ": userAgent must be a string"))
          | some (.str userAgent) =>
            let entry := normalizeLogEntry
              { receivedAt := receivedAt, method := method, path := path,
                userAgent := userAgent }
            match validateLogEntry entry idx with
            | .error e => .error e
            | .ok _ => .ok entry

/-- The loop of `ingestionService.parseJSON` over the decoded array,
short-circuiting on the first bad item. -/
def entriesOfObjs (ext : Ext) (idx : Nat) : List JObj → Except SvcErr (List LogEntry)
  | [] => .ok []
  | obj :: rest =>
    match jsonObjectToLogEntry ext obj idx with
    | .error e => .error e
    | .ok entry =>
      match entriesOfObjs ext (idx + 1) rest with
      | .error e => .error e
      | .ok entries => .ok (entry :: entries)

/-- Go `ingestionService.parseJSON`. -/
def parseJSONGo (ext : Ext) (buf : Blob) : Except SvcErr (List LogEntry) :=
  match ext.jsonArr buf with
  | none => .error (errValidationFailed "invalid json")
  | some arr => entriesOfObjs ext 0 arr

/-- Go `ingestionService.validateLogBatch`. (The `r == nil` branch has no
counterpart: a body is always present in this model.) -/
def validateLogBatch (ext : Ext) (customerID format : String) (body : Blob) :
    Except SvcErr (List LogEntry) :=
  if customerID = "" then .error (errValidationFailed "customerID is required")
  else
    match readWithLimit body maxBatchBytes with
    | .error _ => .error (errValidationFailed "batch too large: must be <= 2MB")
    | .ok buf =>
      if containsSub (toLowerStr format) "json" then
        match parseJSONGo ext buf with
        | .error e => .error e
        | .ok entries =>
          if entries = [] then .error (errValidationFailed "log entries cannot be empty")
          else .ok entries
      else .error (errValidationFailed ("unsupported input format: " ++ format))

-- ---------------------------------------------------------------------------
-- streams.partialInsightProducer.Produce
-- ---------------------------------------------------------------------------

/-- Go `Produce`'s loop over `ByWindowStart`: parse each window key back to a
time (RFC3339), build the event and publish it. A key that fails to parse
aborts the loop — events already published stay published. The boolean is
`true` when the whole loop succeeded. (The pre-publish `ctx.Done()` check is
modelled for an uncancelled context, the situation of every ingest claim.) -/
def produceLoop (ext : Ext) (cust batchID : String) (w : Wsize) :
    List (String × WindowCounts) → List PIEvent × Bool
  | [] => ([], true)
  | (wk, wa) :: rest =>
    match ext.parseRFC3339 wk with
    | none => ([], false)
    | some t =>
      let ev : PIEvent :=
        { customerID := cust, batchID := batchID, windowStart := t, windowSize := w,
          requestsByPath := wa.pathCounts, requestsByUserAgent := wa.uaCounts }
      let r := produceLoop ext cust batchID w rest
      (ev :: r.1, r.2)

/-- Go `partialInsightProducer.Produce`: the events published to the queue and
whether the call returned nil. -/
def produce (ext : Ext) (bs : BatchSummary) : List PIEvent × Bool :=
  produceLoop ext bs.customerID bs.batchID bs.windowSize bs.byWindowStart

-- ---------------------------------------------------------------------------
-- ingestors.ingestionService.IngestBatch
-- ---------------------------------------------------------------------------

/-- The batch id `IngestBatch` chooses: the trimmed idempotency key, or a
fresh ulid when the trimmed key is empty. -/
def chosenBatchID (ext : Ext) (idemKey : String) : String :=
  if trimStr idemKey = "" then ext.newUlid else trimStr idemKey

/-- Go `ingestionService.IngestBatch`: validate, choose the batch id (trimmed
idempotency key, else a fresh ulid), store, summarize, produce. The triple
is (result, file-system state after the call, events published to the
queue). Note the success result is Go's `&IngestResult{}` — the zero value,
its `BatchID` empty. -/
def ingestBatch (ext : Ext) (root : String) (w : Wsize) (customerID idemKey format : String)
    (body : Blob) (st : FsState) :
    Except SvcErr IngestResult × FsState × List PIEvent :=
  match validateLogBatch ext customerID format body with
  | .error e => (.error e, st, [])
  | .ok logEntries =>
    let batchID := chosenBatchID ext idemKey
    let logBatch : LogBatch :=
      { batchID := batchID, customerID := customerID, entries := logEntries }
    match logBatchStorePut ext root st logBatch with
    | .error .alreadyExist => (.error errLogBatchAlreadyProcessed, st, [])
    | .error (.failed _) => (.error errInternalLogBatchStoreFailed, st, [])
    | .ok st' =>
      let batchSummary := summarize ext.uaFam w logBatch
      let produced := produce ext batchSummary
      if produced.2 then (.ok ⟨"", 0⟩, st', produced.1)
      else (.error errInternalPublisherFailed, st', produced.1)

-- ---------------------------------------------------------------------------
-- streams.partialInsightConsumer.runPartitionWorker
-- ---------------------------------------------------------------------------

/-- One lane of the partitioned queue as a worker sees it: the queued
events, and whether `Close` has closed the channel. -/
structure Lane where
  q : List PIEvent
  closed : Bool
deriving DecidableEq

/-- Stand-in for Go's zero `PartialInsightEvent` — the value a receive on a
closed, drained channel yields. (Its `WindowSize` field is the zero string
`""`, which is outside the `Wsize` embedding; the worker-loop claims never
inspect the received value, so a placeholder is used.) -/
def zeroEventValue : PIEvent := ⟨"", "", 0, .minute, [], []⟩

/-- One `select` round of `runPartitionWorker`. `exited` = the worker
returned; `handled e rest` = the receive case fired with value `e` (note:
the Go code discards the channel's ok flag — a closed drained lane yields
the zero value and the loop continues); `blocked` = no case ready (open
empty lane, no signals). When several cases are ready Go picks one at
random; the configurations the claims examine have a single ready case. -/
inductive WorkerStep where
  | exited
  | handled (e : PIEvent) (rest : Lane)
  | blocked
deriving DecidableEq

/-- The `select` of `runPartitionWorker`'s loop body. -/
def workerStep (ctxDone stopDone : Bool) (lane : Lane) : WorkerStep :=
  if ctxDone ∨ stopDone then .exited
  else
    match lane.q with
    | e :: rest => .handled e ⟨rest, lane.closed⟩
    | [] => if lane.closed then .handled zeroEventValue lane else .blocked

/-- Does the worker return within `fuel` loop iterations (signals held
fixed)? `blocked` with no signal pending never turns into an exit. -/
def workerExitsWithin (fuel : Nat) (ctxDone stopDone : Bool) (lane : Lane) : Bool :=
  match fuel with
  | 0 => false
  | n + 1 =>
    match workerStep ctxDone stopDone lane with
    | .exited => true
    | .handled _ rest => workerExitsWithin n ctxDone stopDone rest
    | .blocked => false

-- ---------------------------------------------------------------------------
-- Predicates and observation functions used by the claims
-- ---------------------------------------------------------------------------

/-- A Go map snapshot has no duplicate keys (guaranteed for every map the
runtime produces). -/
def keysNodup {V : Type} (m : Alist V) : Prop := (akeys m).Nodup

instance {V : Type} (m : Alist V) : Decidable (keysNodup m) :=
  inferInstanceAs (Decidable (akeys m).Nodup)

/-- Every count in the map is non-negative. -/
def mapNonneg (m : Alist Int) : Prop := ∀ kv ∈ m, 0 ≤ kv.2

instance (m : Alist Int) : Decidable (mapNonneg m) :=
  inferInstanceAs (Decidable (∀ kv ∈ m, 0 ≤ kv.2))

/-- The "resolves outside the configured root" condition of `validateKey`:
`filepath.Rel` from the absolute root to the joined path fails or yields a
`..`-prefixed relative path. -/
def outsideRootCheck (root key : String) : Bool :=
  match relPath (absPath root) (absPath (joinPath root (cleanPath key))) with
  | none => true
  | some rel => strHasPre rel ".."

/-- The path key as the spec/claim words it: `upper(trim(method)) + " " + path`.
Spec-side definition, for comparison with the source's `pathKeyOf` (which
does not trim). -/
def claimedPathKeyOf (e : LogEntry) : String :=
  toUpperStr (trimStr e.method) ++ " " ++ e.path

/-- Number of entries of `es` whose window key is `wk` and whose normalized
path key (as the source computes it) is `k`. -/
def countPath (w : Wsize) (es : List LogEntry) (wk k : String) : Int :=
  ((es.filter fun e => windowKeyOf w e.receivedAt = wk ∧ pathKeyOf e = k).length : Int)

/-- Same count, but with the claim's trimmed path key. -/
def countClaimedPath (w : Wsize) (es : List LogEntry) (wk k : String) : Int :=
  ((es.filter fun e => windowKeyOf w e.receivedAt = wk ∧ claimedPathKeyOf e = k).length : Int)

/-- Number of entries of `es` whose window key is `wk` and whose normalized
user-agent key is `k`. -/
def countUA (uaFam : String → String) (w : Wsize) (es : List LogEntry) (wk k : String) : Int :=
  ((es.filter fun e => windowKeyOf w e.receivedAt = wk ∧ normalizeUA uaFam e.userAgent = k).length : Int)

-- ---------------------------------------------------------------------------
-- Concrete sample values for witnesses and counterexamples
-- ---------------------------------------------------------------------------

/-- The instant 2025-12-21T14:21:00Z as epoch nanoseconds. -/
def sampleInstant : Instant := 1766326860 * 1000000000

/-- A decoded log-entry object, as `encoding/json` yields it for
`\x7b"receivedAt":"2025-12-21T14:21:00.000Z","method":"GET","path":"/","userAgent":"test"\x7d`. -/
def sampleObj : JObj :=
  [("receivedAt", .str "2025-12-21T14:21:00.000Z"), ("method", .str "GET"),
   ("path", .str "/"), ("userAgent", .str "test")]

/-- The bytes of a one-entry JSON batch body (the object above in a
one-element array). -/
def sampleBody : Blob :=
  strBytes "[\x7b\"receivedAt\":\"2025-12-21T14:21:00.000Z\",\"method\":\"GET\",\"path\":\"/\",\"userAgent\":\"test\"\x7d]"

/-- A concrete instance of the external collaborators (`encoding/json`,
`time.Parse`, the ua parser, the ulid generator), agreeing with the real
functions on the sample inputs that appear in the witnesses: the sample body
decodes to the sample object, the sample timestamps parse to
`sampleInstant`, the ua parser knows no families, and stored aggregates fail
to decode. -/
def extSample : Ext :=
  { jsonArr := fun b => if b = sampleBody then some [sampleObj] else none,
    parseLayoutMs := fun s => if s = "2025-12-21T14:21:00.000Z" then some sampleInstant else none,
    parseLayoutTz := fun _ => none,
    parseRFC3339 := fun s => if s = "2025-12-21T14:21:00Z" then some sampleInstant else none,
    uaFam := fun _ => "",
    newUlid := "01ARZ3NDEKTSV4RRFFQ69G5FAV",
    encBatch := fun _ => [],
    encAgg := fun _ => [],
    decAgg := fun _ => none }

/-- The sample entry after normalization. -/
def sampleEntry : LogEntry :=
  { receivedAt := sampleInstant, method := "GET", path := "/", userAgent := "test" }

/-- A 2 MiB body (all zero bytes) for the size-cap witness. -/
def body2MiB : Blob := List.replicate maxBatchBytes 48

/-- External collaborators for the size-cap witness: a decoder that reads
any body as the one-entry sample array (standing in for `encoding/json` on
a well-formed 2 MiB array — a real 2 MiB body can be valid JSON, e.g. an
array of thousands of entries). -/
def ext2MiB : Ext :=
  { extSample with jsonArr := fun _ => some [sampleObj] }

-- ===========================================================================
-- Helper lemmas
-- ===========================================================================

theorem alookup_aupsert_self {V : Type} (m : Alist V) (k : String) (v : V) :
    alookup (aupsert m k v) k = some v := by
  induction m with
  | nil => simp [aupsert, alookup]
  | cons kv rest ih =>
    by_cases h : k = kv.1
    · simp [aupsert, alookup, h]
    · simp [aupsert, alookup, h, ih]

theorem alookup_aupsert_ne {V : Type} (m : Alist V) (k k' : String) (v : V)
    (h : k' ≠ k) : alookup (aupsert m k v) k' = alookup m k' := by
  induction m with
  | nil => simp [aupsert, alookup, h]
  | cons kv rest ih =>
    by_cases hk : k = kv.1
    · subst hk
      simp [aupsert, alookup, h]
    · by_cases hk' : k' = kv.1
      · simp [aupsert, alookup, hk, hk']
      · simp [aupsert, alookup, hk, hk', ih]

theorem ilookup_aupsert_self (m : Alist Int) (k : String) (v : Int) :
    ilookup (aupsert m k v) k = v := by
  simp [ilookup, alookup_aupsert_self]

theorem ilookup_aupsert_ne (m : Alist Int) (k k' : String) (v : Int)
    (h : k' ≠ k) : ilookup (aupsert m k v) k' = ilookup m k' := by
  simp [ilookup, alookup_aupsert_ne m k k' v h]

theorem alookup_of_not_mem_keys {V : Type} (m : Alist V) (k : String)
    (h : k ∉ akeys m) : alookup m k = none := by
  induction m with
  | nil => simp [alookup]
  | cons kv rest ih =>
    simp [akeys] at h
    push_neg at h
    simp [alookup, h.1, ih (by simpa [akeys] using h.2)]

theorem ilookup_of_not_mem_keys (m : Alist Int) (k : String)
    (h : k ∉ akeys m) : ilookup m k = 0 := by
  simp [ilookup, alookup_of_not_mem_keys m k h]

theorem ilookup_nonneg (m : Alist Int) (k : String) (h : mapNonneg m) :
    0 ≤ ilookup m k := by
  induction m with
  | nil => simp [ilookup, alookup]
  | cons kv rest ih =>
    by_cases hk : k = kv.1
    · simpa [ilookup, alookup, hk] using h kv (by simp)
    · simpa [ilookup, alookup, hk] using ih (fun p hp => h p (by simp [hp]))

theorem pow63 : (2 : Int) ^ 63 = 9223372036854775808 := by norm_num

theorem pow64 : (2 : Int) ^ 64 = 18446744073709551616 := by norm_num

theorem wrap64_wrap64_add (x y : Int) : wrap64 (wrap64 x + y) = wrap64 (x + y) := by
  unfold wrap64
  have h : (x + 2 ^ 63) % 2 ^ 64 - 2 ^ 63 + y + 2 ^ 63 =
      (x + 2 ^ 63) % 2 ^ 64 + y := by ring
  rw [h, Int.emod_add_emod]
  have h2 : x + 2 ^ 63 + y = x + y + 2 ^ 63 := by ring
  rw [h2]

theorem wrap64_eq_self (x : Int) (h₀ : -(2 ^ 63) ≤ x) (h₁ : x < 2 ^ 63) :
    wrap64 x = x := by
  unfold wrap64
  have hM : (2 : Int) ^ 64 = 2 ^ 63 + 2 ^ 63 := by norm_num
  rw [Int.emod_eq_of_lt (by linarith) (by rw [hM]; linarith)]
  ring

-- ===========================================================================
-- C1: rollup as a fold
-- ===========================================================================

theorem ilookup_mergeCounts (p : Alist Int) :
    ∀ (a : Alist Int) (k : String), keysNodup p →
    ilookup (mergeCounts a p) k =
      if k ∈ akeys p then wrap64 (ilookup a k + ilookup p k) else ilookup a k := by
  induction p with
  | nil =>
    intro a k _
    simp [mergeCounts, akeys]
  | cons kv rest ih =>
    intro a k hp
    have hak : akeys (kv :: rest) = kv.1 :: akeys rest := by simp [akeys]
    have hnodup : (kv.1 :: akeys rest).Nodup := by
      rw [← hak]
      exact hp
    have hk1 : kv.1 ∉ akeys rest := (List.nodup_cons.mp hnodup).1
    have hnd : keysNodup rest := (List.nodup_cons.mp hnodup).2
    have hstep : mergeCounts a (kv :: rest) =
        mergeCounts (aupsert a kv.1 (wadd (ilookup a kv.1) kv.2)) rest := rfl
    rw [hstep, ih _ k hnd]
    by_cases hkk : k = kv.1
    · subst hkk
      rw [if_neg hk1, ilookup_aupsert_self, hak, if_pos (List.mem_cons_self _ _)]
      simp [ilookup, alookup, wadd]
    · rw [ilookup_aupsert_ne _ _ _ _ hkk]
      have hil : ilookup (kv :: rest) k = ilookup rest k := by
        simp [ilookup, alookup, hkk]
      rw [hak]
      by_cases hmem : k ∈ akeys rest
      · rw [if_pos hmem, if_pos (List.mem_cons_of_mem _ hmem), hil]
      · rw [if_neg hmem, if_neg (by simp [hkk, hmem])]

theorem rollup_ok (agg : AggResult) (e : PIEvent)
    (h1 : e.customerID = agg.customerID) (h2 : e.windowStart = agg.windowStart)
    (h3 : e.windowSize = agg.windowSize) :
    rollup agg e = .ok { agg with
      requestsByPath := mergeCounts agg.requestsByPath e.requestsByPath,
      requestsByUserAgent := mergeCounts agg.requestsByUserAgent e.requestsByUserAgent } := by
  simp [rollup, h1, h2, h3]

theorem foldRollup_counts (l : List PIEvent) :
    ∀ (agg : AggResult) (sP sU : Int) (k : String),
    (∀ e ∈ l, e.customerID = agg.customerID ∧ e.windowStart = agg.windowStart ∧
      e.windowSize = agg.windowSize) →
    (∀ e ∈ l, keysNodup e.requestsByPath ∧ keysNodup e.requestsByUserAgent) →
    ilookup agg.requestsByPath k = wrap64 sP →
    ilookup agg.requestsByUserAgent k = wrap64 sU →
    pathCountOf (foldRollup agg l) k = .ok (wrap64 (sP + sumPath l k)) ∧
    uaCountOf (foldRollup agg l) k = .ok (wrap64 (sU + sumUA l k)) := by
  induction l with
  | nil =>
    intro agg sP sU k _ _ hP hU
    simp [foldRollup, pathCountOf, uaCountOf, sumPath, sumUA, hP, hU, Except.map]
  | cons e rest ih =>
    intro agg sP sU k hid hnd hP hU
    obtain ⟨h1, h2, h3⟩ := hid e (by simp)
    obtain ⟨hn1, hn2⟩ := hnd e (by simp)
    have hroll := rollup_ok agg e h1 h2 h3
    set agg' : AggResult := { agg with
      requestsByPath := mergeCounts agg.requestsByPath e.requestsByPath,
      requestsByUserAgent := mergeCounts agg.requestsByUserAgent e.requestsByUserAgent }
    have hfold : foldRollup agg (e :: rest) = foldRollup agg' rest := by
      simp [foldRollup, hroll]
    have hP' : ilookup agg'.requestsByPath k =
        wrap64 (sP + ilookup e.requestsByPath k) := by
      show ilookup (mergeCounts agg.requestsByPath e.requestsByPath) k = _
      rw [ilookup_mergeCounts _ _ _ hn1]
      by_cases hmem : k ∈ akeys e.requestsByPath
      · rw [if_pos hmem, hP, wrap64_wrap64_add]
      · rw [if_neg hmem, hP, ilookup_of_not_mem_keys _ _ hmem, add_zero]
    have hU' : ilookup agg'.requestsByUserAgent k =
        wrap64 (sU + ilookup e.requestsByUserAgent k) := by
      show ilookup (mergeCounts agg.requestsByUserAgent e.requestsByUserAgent) k = _
      rw [ilookup_mergeCounts _ _ _ hn2]
      by_cases hmem : k ∈ akeys e.requestsByUserAgent
      · rw [if_pos hmem, hU, wrap64_wrap64_add]
      · rw [if_neg hmem, hU, ilookup_of_not_mem_keys _ _ hmem, add_zero]
    have hid' : ∀ e' ∈ rest, e'.customerID = agg'.customerID ∧
        e'.windowStart = agg'.windowStart ∧ e'.windowSize = agg'.windowSize := by
      intro e' he'
      exact hid e' (by simp [he'])
    have hnd' : ∀ e' ∈ rest, keysNodup e'.requestsByPath ∧
        keysNodup e'.requestsByUserAgent := fun e' he' => hnd e' (by simp [he'])
    have := ih agg' (sP + ilookup e.requestsByPath k)
      (sU + ilookup e.requestsByUserAgent k) k hid' hnd' hP' hU'
    rw [hfold]
    constructor
    · rw [this.1]
      have : sP + ilookup e.requestsByPath k + sumPath rest k =
          sP + sumPath (e :: rest) k := by
        simp [sumPath]
        ring
      rw [this]
    · rw [this.2]
      have : sU + ilookup e.requestsByUserAgent k + sumUA rest k =
          sU + sumUA (e :: rest) k := by
        simp [sumUA]
        ring
      rw [this]

theorem sumPath_nonneg (l : List PIEvent) (k : String)
    (h : ∀ e ∈ l, mapNonneg e.requestsByPath) : 0 ≤ sumPath l k := by
  induction l with
  | nil => simp [sumPath]
  | cons e rest ih =>
    have h1 : 0 ≤ ilookup e.requestsByPath k := ilookup_nonneg _ _ (h e (by simp))
    have h2 : 0 ≤ sumPath rest k := ih (fun e' he' => h e' (by simp [he']))
    simp only [sumPath, List.map_cons, List.sum_cons]
    simpa [sumPath] using add_nonneg h1 h2

theorem sumUA_nonneg (l : List PIEvent) (k : String)
    (h : ∀ e ∈ l, mapNonneg e.requestsByUserAgent) : 0 ≤ sumUA l k := by
  induction l with
  | nil => simp [sumUA]
  | cons e rest ih =>
    have h1 : 0 ≤ ilookup e.requestsByUserAgent k := ilookup_nonneg _ _ (h e (by simp))
    have h2 : 0 ≤ sumUA rest k := ih (fun e' he' => h e' (by simp [he']))
    simp only [sumUA, List.map_cons, List.sum_cons]
    simpa [sumUA] using add_nonneg h1 h2

theorem sumPath_perm (l l' : List PIEvent) (hp : l.Perm l') (k : String) :
    sumPath l k = sumPath l' k :=
  List.Perm.sum_eq (List.Perm.map _ hp)

theorem sumUA_perm (l l' : List PIEvent) (hp : l.Perm l') (k : String) :
    sumUA l k = sumUA l' k :=
  List.Perm.sum_eq (List.Perm.map _ hp)

/-- Claim C1 (amended): folding `Rollup` over any finite list of
`PartialInsightEvent`s that share `(customerId, windowStart, windowSize)`,
starting from the empty aggregate for that identity, succeeds and yields, at
every key, the key-wise sum of the events' count maps *reduced into int64 by
Go's two's-complement wraparound*; the result is the same for any
permutation of the events; and when all counts are non-negative and the
key-wise exact sums stay below `2^63`, the stored counts equal the exact
sums and in particular stay non-negative int64 values. -/
theorem rollupFoldIsKeywiseSum (c : String) (t : Instant) (w : Wsize)
    (l : List PIEvent)
    (hid : ∀ e ∈ l, e.customerID = c ∧ e.windowStart = t ∧ e.windowSize = w)
    (hnd : ∀ e ∈ l, keysNodup e.requestsByPath ∧ keysNodup e.requestsByUserAgent) :
    (∀ k, pathCountOf (foldRollup (emptyAggResult c t w) l) k =
        .ok (wrap64 (sumPath l k))) ∧
    (∀ k, uaCountOf (foldRollup (emptyAggResult c t w) l) k =
        .ok (wrap64 (sumUA l k))) ∧
    (∀ l', l.Perm l' →
      (∀ k, pathCountOf (foldRollup (emptyAggResult c t w) l') k =
          pathCountOf (foldRollup (emptyAggResult c t w) l) k) ∧
      (∀ k, uaCountOf (foldRollup (emptyAggResult c t w) l') k =
          uaCountOf (foldRollup (emptyAggResult c t w) l) k)) ∧
    ((∀ e ∈ l, mapNonneg e.requestsByPath ∧ mapNonneg e.requestsByUserAgent) →
      ∀ k, (sumPath l k < 2 ^ 63 →
          pathCountOf (foldRollup (emptyAggResult c t w) l) k = .ok (sumPath l k) ∧
          0 ≤ sumPath l k) ∧
        (sumUA l k < 2 ^ 63 →
          uaCountOf (foldRollup (emptyAggResult c t w) l) k = .ok (sumUA l k) ∧
          0 ≤ sumUA l k)) := by
  have hbase : ∀ k, ilookup (emptyAggResult c t w).requestsByPath k = wrap64 0 ∧
      ilookup (emptyAggResult c t w).requestsByUserAgent k = wrap64 0 := by
    intro k
    constructor <;> simp [emptyAggResult, ilookup, alookup, wrap64]
  have hmain : ∀ k, pathCountOf (foldRollup (emptyAggResult c t w) l) k =
      .ok (wrap64 (sumPath l k)) ∧
      uaCountOf (foldRollup (emptyAggResult c t w) l) k = .ok (wrap64 (sumUA l k)) := by
    intro k
    have := foldRollup_counts l (emptyAggResult c t w) 0 0 k
      (by intro e he; simpa [emptyAggResult] using hid e he) hnd
      (hbase k).1 (hbase k).2
    simpa using this
  refine ⟨fun k => (hmain k).1, fun k => (hmain k).2, ?_, ?_⟩
  · intro l' hperm
    have hid' : ∀ e ∈ l', e.customerID = c ∧ e.windowStart = t ∧ e.windowSize = w :=
      fun e he => hid e (hperm.symm.subset he)
    have hnd' : ∀ e ∈ l', keysNodup e.requestsByPath ∧ keysNodup e.requestsByUserAgent :=
      fun e he => hnd e (hperm.symm.subset he)
    have hmain' : ∀ k, pathCountOf (foldRollup (emptyAggResult c t w) l') k =
        .ok (wrap64 (sumPath l' k)) ∧
        uaCountOf (foldRollup (emptyAggResult c t w) l') k = .ok (wrap64 (sumUA l' k)) := by
      intro k
      have := foldRollup_counts l' (emptyAggResult c t w) 0 0 k
        (by intro e he; simpa [emptyAggResult] using hid' e he) hnd'
        (hbase k).1 (hbase k).2
      simpa using this
    constructor
    · intro k
      rw [(hmain' k).1, (hmain k).1, sumPath_perm l l' hperm]
    · intro k
      rw [(hmain' k).2, (hmain k).2, sumUA_perm l l' hperm]
  · intro hpos k
    constructor
    · intro hlt
      have hge : 0 ≤ sumPath l k := sumPath_nonneg l k (fun e he => (hpos e he).1)
      have := (hmain k).1
      rw [wrap64_eq_self _ (by linarith) hlt] at this
      exact ⟨this, hge⟩
    · intro hlt
      have hge : 0 ≤ sumUA l k := sumUA_nonneg l k (fun e he => (hpos e he).2)
      have := (hmain k).2
      rw [wrap64_eq_self _ (by linarith) hlt] at this
      exact ⟨this, hge⟩

/-- Claim C1 counterexample: two events with the same identity, each
carrying the non-negative int64 count `2^62` at key `"k"`. The fold stores
`-2^63` at `"k"` — Go's int64 addition wrapped around — which is neither the
element-wise sum `2^63` nor non-negative, refuting the claim as stated. -/
theorem rollupFoldOverflowCounterexample :
    pathCountOf (foldRollup (emptyAggResult "c" 0 Wsize.minute)
        [⟨"c", "b1", 0, .minute, [("k", 4611686018427387904)], []⟩,
         ⟨"c", "b2", 0, .minute, [("k", 4611686018427387904)], []⟩]) "k" =
      .ok (-9223372036854775808) ∧
    (0 : Int) ≤ 4611686018427387904 ∧
    (-9223372036854775808 : Int) ≠ 4611686018427387904 + 4611686018427387904 ∧
    (-9223372036854775808 : Int) < 0 := by
  refine ⟨by decide, by norm_num, by norm_num, by norm_num⟩

/-- Witness for `rollupFoldIsKeywiseSum` at a concrete pair of events. -/
theorem rollupFoldIsKeywiseSum_witness :
    pathCountOf (foldRollup (emptyAggResult "c" 0 Wsize.minute)
        [⟨"c", "b1", 0, .minute, [("a", 2), ("b", 3)], [("u", 1)]⟩,
         ⟨"c", "b2", 0, .minute, [("a", 5)], []⟩]) "a" = .ok 7 := by
  have h := (rollupFoldIsKeywiseSum "c" 0 .minute
      [⟨"c", "b1", 0, .minute, [("a", 2), ("b", 3)], [("u", 1)]⟩,
       ⟨"c", "b2", 0, .minute, [("a", 5)], []⟩]
      (by decide) (by decide)).1 "a"
  rw [h]
  decide

-- ===========================================================================
-- C2: partition routing determinism
-- ===========================================================================

/-- Claim C2: two PartialInsightEvents with equal windowStart instants and
the same windowSize get the same producer partition key
(`windowSize.BucketID(windowStart)`), and `Publish` maps that key to the
same lane: the FNV-1a 32-bit hash of the key, its 4-byte digest read
little-endian, modulo the partition count `n` — so both events land in the
same (valid) lane. -/
theorem samePartitionKeySameLane (e₁ e₂ : PIEvent) (n : Nat) (hn : 0 < n)
    (ht : e₁.windowStart = e₂.windowStart) (hw : e₁.windowSize = e₂.windowSize) :
    producerPartitionKey e₁ = producerPartitionKey e₂ ∧
    laneOf e₁ n = laneOf e₂ n ∧
    laneOf e₁ n =
      leUint32 (fnvDigest (fnv32a (strBytes (producerPartitionKey e₁)))) % n ∧
    laneOf e₁ n < n := by
  have hkey : producerPartitionKey e₁ = producerPartitionKey e₂ := by
    unfold producerPartitionKey
    rw [ht, hw]
  refine ⟨hkey, ?_, rfl, ?_⟩
  · unfold laneOf
    rw [hkey]
  · exact Nat.mod_lt _ hn

/-- Witness for `samePartitionKeySameLane`: two events for the minute window
2025-12-21T14:21:00Z with the default 8 partitions share the key
`minute-21` and lane 7. -/
theorem samePartitionKeySameLane_witness :
    producerPartitionKey ⟨"c1", "b1", 1766326860000000000, .minute, [], []⟩ =
      producerPartitionKey ⟨"c2", "b2", 1766326860000000000, .minute, [("x", 1)], []⟩ ∧
    laneOf ⟨"c1", "b1", 1766326860000000000, .minute, [], []⟩ 8 =
      laneOf ⟨"c2", "b2", 1766326860000000000, .minute, [("x", 1)], []⟩ 8 ∧
    producerPartitionKey ⟨"c1", "b1", 1766326860000000000, .minute, [], []⟩ = "minute-21" ∧
    laneOf ⟨"c1", "b1", 1766326860000000000, .minute, [], []⟩ 8 = 7 := by
  have h := samePartitionKeySameLane
    ⟨"c1", "b1", 1766326860000000000, .minute, [], []⟩
    ⟨"c2", "b2", 1766326860000000000, .minute, [("x", 1)], []⟩ 8
    (by norm_num) rfl rfl
  exact ⟨h.1, h.2.1, by decide, by decide⟩

-- ===========================================================================
-- C5: key-space safety of the object store
-- ===========================================================================

theorem validateKey_ok_iff (root key : String) :
    validateKey root key = .ok () ↔
      (key ≠ "" ∧ isAbs key = false ∧ cleanPath key ≠ "." ∧ cleanPath key ≠ ".." ∧
       strHasPre (cleanPath key) ".." = false ∧ outsideRootCheck root key = false) := by
  unfold validateKey
  by_cases h1 : key = ""
  · simp [h1]
  · by_cases h2 : isAbs key = true
    · simp [h1, h2]
    · by_cases h3 : cleanPath key = ".." ∨ cleanPath key = "."
      · rcases h3 with h3 | h3 <;> simp [h1, h2, h3]
      · push_neg at h3
        by_cases h4 : strHasPre (cleanPath key) ".." = true
        · simp [h1, h2, h3.1, h3.2, h4]
        · rcases hrel : relPath (absPath root) (absPath (joinPath root (cleanPath key)))
            with _ | rel
          · simp [h1, h2, h3.1, h3.2, h4, hrel, outsideRootCheck]
          · by_cases h5 : strHasPre rel ".." = true
            · simp [h1, h2, h3.1, h3.2, h4, h5, hrel, outsideRootCheck]
            · simp [h1, h2, h3.1, h3.2, h4, h5, hrel, outsideRootCheck]

theorem validateKey_ok_or_invalid (root key : String) :
    validateKey root key = .ok () ∨ validateKey root key = .error .invalidKey := by
  unfold validateKey
  by_cases h1 : key = ""
  · simp [h1]
  · by_cases h2 : isAbs key = true
    · simp [h1, h2]
    · by_cases h3 : cleanPath key = ".." ∨ cleanPath key = "."
      · simp [h1, h2, h3]
      · by_cases h4 : strHasPre (cleanPath key) ".." = true
        · simp [h1, h2, h3, h4]
        · rcases hrel : relPath (absPath root) (absPath (joinPath root (cleanPath key)))
            with _ | rel
          · simp [h1, h2, h3, h4, hrel]
          · by_cases h5 : strHasPre rel ".." = true <;>
              simp [h1, h2, h3, h4, h5, hrel]

/-- Claim C5: a key that is empty, absolute, cleans to `.` or `..`, has a
cleaned form beginning with `..`, or resolves outside the configured root is
rejected by both `Put` and `Get` with `InvalidKey` — no file is created or
read; and a key that passes validation operates on the path joined under the
root (`Join(root, Clean(key))` for `Put`, `Join(root, key)` for `Get`). -/
theorem keySpaceSafety (root key : String) (st : FsState) (content : Blob) (ov : Bool) :
    ((key = "" ∨ isAbs key = true ∨ cleanPath key = "." ∨ cleanPath key = ".." ∨
      strHasPre (cleanPath key) ".." = true ∨ outsideRootCheck root key = true) →
      validateKey root key = .error .invalidKey ∧
      fsPut root st key content ov = .error .invalidKey ∧
      fsGet root st key = .error .invalidKey) ∧
    (validateKey root key = .ok () →
      fsPut root st key content true =
        .ok (key, aupsert st (joinPath root (cleanPath key)) content) ∧
      (alookup st (joinPath root (cleanPath key)) = none →
        fsPut root st key content false =
          .ok (key, aupsert st (joinPath root (cleanPath key)) content)) ∧
      (∀ b, alookup st (joinPath root (cleanPath key)) = some b →
        fsPut root st key content false = .error .alreadyExists) ∧
      fsGet root st key =
        (match alookup st (joinPath root key) with
         | none => .error .notFound
         | some b => .ok b)) := by
  constructor
  · intro hbad
    have herr : validateKey root key = .error .invalidKey := by
      rcases validateKey_ok_or_invalid root key with hok | hinv
      · exfalso
        have hc := (validateKey_ok_iff root key).mp hok
        rcases hbad with h | h | h | h | h | h
        · exact hc.1 h
        · rw [hc.2.1] at h
          exact Bool.false_ne_true h
        · exact hc.2.2.1 h
        · exact hc.2.2.2.1 h
        · rw [hc.2.2.2.2.1] at h
          exact Bool.false_ne_true h
        · rw [hc.2.2.2.2.2] at h
          exact Bool.false_ne_true h
      · exact hinv
    refine ⟨herr, ?_, ?_⟩
    · unfold fsPut
      rw [herr]
    · unfold fsGet
      rw [herr]
  · intro hok
    refine ⟨?_, ?_, ?_, ?_⟩
    · unfold fsPut
      rw [hok]
      simp
    · intro habs
      unfold fsPut
      rw [hok]
      simp [habs]
    · intro b hsome
      unfold fsPut
      rw [hok]
      simp [hsome]
    · unfold fsGet
      rw [hok]

/-- Witness for `keySpaceSafety`: `..` and a nested traversal are rejected
without touching the store; a well-formed key writes under the root. -/
theorem keySpaceSafety_witness :
    fsPut "/data" [] ".." [1] false = .error .invalidKey ∧
    fsGet "/data" [] "a/../../x" = .error .invalidKey ∧
    fsPut "/data" [] "raw-batches/c/b.json" [1] false =
      .ok ("raw-batches/c/b.json", [("/data/raw-batches/c/b.json", [1])]) := by
  have h1 := (keySpaceSafety "/data" ".." ([] : FsState) [1] false).1 (by decide)
  have h2 := (keySpaceSafety "/data" "a/../../x" ([] : FsState) [1] false).1 (by decide)
  have h3 := (keySpaceSafety "/data" "raw-batches/c/b.json" ([] : FsState) [1] false).2
    (by decide)
  refine ⟨h1.2.1, h2.2.2, ?_⟩
  rw [h3.2.1 (by decide)]
  decide

-- ===========================================================================
-- C4: Aggregate on a failing store get
-- ===========================================================================

/-- Claim C4 (code bug): when the aggregate store's get fails with an error
other than NotFound — here, the stored aggregate blob fails to decode —
`Get` returns Go's `(nil, err)`; `Aggregate` then evaluates
`aggregateResult.IsNewAggregate()` BEFORE checking the error, dereferencing
the nil pointer: the call panics instead of returning the typed AGG_9001
store error, and performs no rollup and no upsert. The concrete run below
exhibits the panic outcome and the unchanged store. -/
theorem aggregateGetFailureDereferencesNil :
    aggResultStoreGet extSample "/data"
        [("/data/aggregate-results/cus-1/20251221T1421Z.json", [1, 2, 3])]
        "cus-1" sampleInstant .minute = (none, true) ∧
    aggregateSvc extSample "/data"
        [("/data/aggregate-results/cus-1/20251221T1421Z.json", [1, 2, 3])]
        ⟨"cus-1", "b1", sampleInstant, .minute, [("GET /", 1)], [("test", 1)]⟩ =
      (.nilDeref,
       [("/data/aggregate-results/cus-1/20251221T1421Z.json", [1, 2, 3])]) ∧
    errAggregateResultStoreFailed =
      ⟨"internal", "AGG_9001", "internal server error", 500⟩ := by
  refine ⟨by decide, by decide, by decide⟩

-- ===========================================================================
-- C9: worker loop on a closed, drained lane
-- ===========================================================================

/-- Claim C9 (code bug): `runPartitionWorker` does exit on context
cancellation and on the stop signal, but its receive case discards the
channel's closed flag (`event, _ := <-ch`); on a closed and drained lane the
receive yields the zero value and the loop continues — the worker never
returns on exit condition (c). The run below shows the worker handling the
zero value on a closed empty lane and still looping after 50 iterations. -/
theorem workerClosedDrainedNeverExits :
    workerStep true false ⟨[], true⟩ = .exited ∧
    workerStep false true ⟨[], true⟩ = .exited ∧
    workerStep false false ⟨[], true⟩ = .handled zeroEventValue ⟨[], true⟩ ∧
    workerExitsWithin 50 false false ⟨[], true⟩ = false := by
  refine ⟨by decide, by decide, by decide, by decide⟩

-- ===========================================================================
-- C3: duplicate batch → resource conflict ING_1001
-- ===========================================================================

/-- Claim C3: when the file storage reports that
`raw-batches/{customerId}/{batchId}.json` already exists, the store layer
translates `AlreadyExists` into the domain `ErrLogBatchAlreadyExist`, and
`IngestBatch` returns the resource-conflict service error with stable code
ING_1001 (HTTP 409), leaving the store untouched and publishing no events. -/
theorem duplicateBatchConflict (ext : Ext) (root : String) (w : Wsize)
    (cID iKey fmt : String) (body : Blob) (st : FsState) (entries : List LogEntry)
    (hval : validateLogBatch ext cID fmt body = .ok entries)
    (hok : validateKey root (logBatchKey ⟨chosenBatchID ext iKey, cID, entries⟩) = .ok ())
    (hdup : (alookup st (joinPath root (cleanPath
        (logBatchKey ⟨chosenBatchID ext iKey, cID, entries⟩)))).isSome = true) :
    logBatchStorePut ext root st ⟨chosenBatchID ext iKey, cID, entries⟩ =
      .error .alreadyExist ∧
    ingestBatch ext root w cID iKey fmt body st =
      (.error errLogBatchAlreadyProcessed, st, []) ∧
    errLogBatchAlreadyProcessed =
      ⟨"resource_conflict", "ING_1001", "log batch already processed", 409⟩ := by
  obtain ⟨b, hb⟩ := Option.isSome_iff_exists.mp hdup
  have hput : fsPut root st (logBatchKey ⟨chosenBatchID ext iKey, cID, entries⟩)
      (ext.encBatch ⟨chosenBatchID ext iKey, cID, entries⟩) false =
      .error .alreadyExists := by
    unfold fsPut
    rw [hok]
    simp [hb]
  have hstore : logBatchStorePut ext root st ⟨chosenBatchID ext iKey, cID, entries⟩ =
      .error .alreadyExist := by
    unfold logBatchStorePut
    rw [hput]
  refine ⟨hstore, ?_, rfl⟩
  unfold ingestBatch
  rw [hval]
  simp only [hstore]

/-- Witness for `duplicateBatchConflict` at a concrete duplicated ingest. -/
theorem duplicateBatchConflict_witness :
    ingestBatch extSample "/data" .minute "cus-1" "key1" "application/json" sampleBody
        [("/data/raw-batches/cus-1/key1.json", [7])] =
      (.error errLogBatchAlreadyProcessed,
       [("/data/raw-batches/cus-1/key1.json", [7])], []) :=
  (duplicateBatchConflict extSample "/data" .minute "cus-1" "key1" "application/json"
    sampleBody [("/data/raw-batches/cus-1/key1.json", [7])] [sampleEntry]
    (by decide) (by decide) (by decide)).2.1

-- ===========================================================================
-- C10: invalid interpolated key → internal ING_9000
-- ===========================================================================

/-- Claim C10: the trimmed idempotency key and the customerId are
interpolated unvalidated into `raw-batches/{customerId}/{batchId}.json`;
when that key fails the object store's validation, the put fails with
`InvalidKey`, the store layer wraps it (not `BatchAlreadyExists`), and
`IngestBatch` surfaces the internal error ING_9000 (HTTP 500) — storing
nothing and publishing no events — rather than a validation error. -/
theorem invalidKeyIngestInternalError (ext : Ext) (root : String) (w : Wsize)
    (cID iKey fmt : String) (body : Blob) (st : FsState) (entries : List LogEntry)
    (hval : validateLogBatch ext cID fmt body = .ok entries)
    (hbad : validateKey root (logBatchKey ⟨chosenBatchID ext iKey, cID, entries⟩) =
      .error .invalidKey) :
    logBatchKey ⟨chosenBatchID ext iKey, cID, entries⟩ =
      "raw-batches/" ++ cID ++ "/" ++ chosenBatchID ext iKey ++ ".json" ∧
    logBatchStorePut ext root st ⟨chosenBatchID ext iKey, cID, entries⟩ =
      .error (.failed .invalidKey) ∧
    ingestBatch ext root w cID iKey fmt body st =
      (.error errInternalLogBatchStoreFailed, st, []) ∧
    errInternalLogBatchStoreFailed =
      ⟨"internal", "ING_9000", "internal server error", 500⟩ := by
  have hput : fsPut root st (logBatchKey ⟨chosenBatchID ext iKey, cID, entries⟩)
      (ext.encBatch ⟨chosenBatchID ext iKey, cID, entries⟩) false =
      .error .invalidKey := by
    unfold fsPut
    rw [hbad]
  have hstore : logBatchStorePut ext root st ⟨chosenBatchID ext iKey, cID, entries⟩ =
      .error (.failed .invalidKey) := by
    unfold logBatchStorePut
    rw [hput]
  refine ⟨rfl, hstore, ?_, rfl⟩
  unfold ingestBatch
  rw [hval]
  simp only [hstore]

/-- Witness for `invalidKeyIngestInternalError`: the idempotency key
`../../../evil` drives the batch-store key outside `raw-batches/` and the
ingest returns the ING_9000 internal error with nothing stored. -/
theorem invalidKeyIngestInternalError_witness :
    ingestBatch extSample "/data" .minute "cus-1" "../../../evil" "application/json"
        sampleBody [] = (.error errInternalLogBatchStoreFailed, [], []) :=
  (invalidKeyIngestInternalError extSample "/data" .minute "cus-1" "../../../evil"
    "application/json" sampleBody [] [sampleEntry] (by decide) (by decide)).2.2.1

-- ===========================================================================
-- C8: the chosen batch id vs. the returned IngestResult
-- ===========================================================================

theorem produceLoop_ids (ext : Ext) (cust bid : String) (w : Wsize)
    (l : List (String × WindowCounts)) :
    ∀ e ∈ (produceLoop ext cust bid w l).1, e.batchID = bid ∧ e.customerID = cust := by
  induction l with
  | nil => simp [produceLoop]
  | cons kv rest ih =>
    rcases hp : ext.parseRFC3339 kv.1 with _ | t
    · simp [produceLoop, hp]
    · intro e he
      simp only [produceLoop, hp, List.mem_cons] at he
      rcases he with he | he
      · subst he
        exact ⟨rfl, rfl⟩
      · exact ih e he

/-- Claim C8 (amended): on a successful ingest, the batch is stored under
the chosen batch id — the trimmed idempotency key when non-empty, otherwise
the freshly generated id — and every published event carries that id; but
the returned `IngestResult` is Go's zero value `&IngestResult{}`, whose
`BatchID` is empty rather than the chosen id. -/
theorem ingestStoresUnderChosenBatchID (ext : Ext) (root : String) (w : Wsize)
    (cID iKey fmt : String) (body : Blob) (st : FsState) (entries : List LogEntry)
    (hval : validateLogBatch ext cID fmt body = .ok entries)
    (hok : validateKey root (logBatchKey ⟨chosenBatchID ext iKey, cID, entries⟩) = .ok ())
    (habs : alookup st (joinPath root (cleanPath
        (logBatchKey ⟨chosenBatchID ext iKey, cID, entries⟩))) = none)
    (hprod : (produce ext (summarize ext.uaFam w
        ⟨chosenBatchID ext iKey, cID, entries⟩)).2 = true) :
    ingestBatch ext root w cID iKey fmt body st =
      (.ok ⟨"", 0⟩,
       aupsert st
         (joinPath root (cleanPath (logBatchKey ⟨chosenBatchID ext iKey, cID, entries⟩)))
         (ext.encBatch ⟨chosenBatchID ext iKey, cID, entries⟩),
       (produce ext (summarize ext.uaFam w ⟨chosenBatchID ext iKey, cID, entries⟩)).1) ∧
    (∀ e ∈ (produce ext (summarize ext.uaFam w
        ⟨chosenBatchID ext iKey, cID, entries⟩)).1,
      e.batchID = chosenBatchID ext iKey ∧ e.customerID = cID) ∧
    (trimStr iKey ≠ "" → chosenBatchID ext iKey = trimStr iKey) ∧
    (trimStr iKey = "" → chosenBatchID ext iKey = ext.newUlid) := by
  have hput : fsPut root st (logBatchKey ⟨chosenBatchID ext iKey, cID, entries⟩)
      (ext.encBatch ⟨chosenBatchID ext iKey, cID, entries⟩) false =
      .ok (logBatchKey ⟨chosenBatchID ext iKey, cID, entries⟩,
        aupsert st
          (joinPath root (cleanPath (logBatchKey ⟨chosenBatchID ext iKey, cID, entries⟩)))
          (ext.encBatch ⟨chosenBatchID ext iKey, cID, entries⟩)) := by
    unfold fsPut
    rw [hok]
    simp [habs]
  have hstore : logBatchStorePut ext root st ⟨chosenBatchID ext iKey, cID, entries⟩ =
      .ok (aupsert st
        (joinPath root (cleanPath (logBatchKey ⟨chosenBatchID ext iKey, cID, entries⟩)))
        (ext.encBatch ⟨chosenBatchID ext iKey, cID, entries⟩)) := by
    unfold logBatchStorePut
    rw [hput]
  refine ⟨?_, ?_, ?_, ?_⟩
  · unfold ingestBatch
    rw [hval]
    simp only [hstore, hprod]
    simp [produce, hprod]
  · intro e he
    have := produceLoop_ids ext cID (chosenBatchID ext iKey) w
      (summarize ext.uaFam w ⟨chosenBatchID ext iKey, cID, entries⟩).byWindowStart e
    simp only [produce] at he
    have h2 := this (by simpa [summarize] using he)
    exact ⟨h2.1, h2.2⟩
  · intro h
    simp [chosenBatchID, h]
  · intro h
    simp [chosenBatchID, h]

/-- Claim C8 counterexample: a concrete successful ingest with the
non-empty idempotency key `key1`. The call succeeds but returns
`&IngestResult{}` — its `BatchID` is `""`, not the chosen `key1`. -/
theorem ingestResultOmitsBatchID :
    (ingestBatch extSample "/data" .minute "cus-1" "key1" "application/json"
        sampleBody []).1 = .ok ⟨"", 0⟩ ∧
    trimStr "key1" = "key1" ∧
    ("" : String) ≠ "key1" := by
  refine ⟨by decide, by decide, by decide⟩

/-- Witness for `ingestStoresUnderChosenBatchID` at the concrete ingest of
the sample body. -/
theorem ingestStoresUnderChosenBatchID_witness :
    ingestBatch extSample "/data" .minute "cus-1" "key1" "application/json"
        sampleBody [] =
      (.ok ⟨"", 0⟩, [("/data/raw-batches/cus-1/key1.json", [])],
       [⟨"cus-1", "key1", sampleInstant, .minute, [("GET /", 1)], [("test", 1)]⟩]) := by
  have h := (ingestStoresUnderChosenBatchID extSample "/data" .minute "cus-1" "key1"
    "application/json" sampleBody [] [sampleEntry]
    (by decide) (by decide) (by decide) (by decide)).1
  rw [h]
  decide

-- ===========================================================================
-- C7: the 2 MiB size cap
-- ===========================================================================

theorem readWithLimit_small (body : Blob) (h : body.length ≤ maxBatchBytes) :
    readWithLimit body maxBatchBytes = .ok body := by
  unfold readWithLimit
  have hmin : min (maxBatchBytes + 1) body.length = body.length := by omega
  rw [hmin, if_neg (by omega), List.take_length]

theorem readWithLimit_large (body : Blob) (h : maxBatchBytes + 1 ≤ body.length) :
    readWithLimit body maxBatchBytes = .error (errValidationFailed "batch too large") := by
  unfold readWithLimit
  have hmin : min (maxBatchBytes + 1) body.length = maxBatchBytes + 1 := by omega
  rw [hmin, if_pos (by omega)]

/-- Claim C7: a body of exactly `2*1024*1024` bytes passes the size check —
the single limited read returns it whole — and is accepted when the rest of
the validation succeeds; any body with `2*1024*1024 + 1` readable bytes is
rejected by `IngestBatch` with the invalid_argument error of stable code
ING_1000, storing nothing and publishing nothing. -/
theorem sizeCapBoundary (ext : Ext) (root : String) (w : Wsize)
    (cID iKey fmt : String) (body bigBody : Blob) (st : FsState) :
    (body.length = 2 * 1024 * 1024 → readWithLimit body maxBatchBytes = .ok body) ∧
    (body.length = 2 * 1024 * 1024 → cID ≠ "" →
      containsSub (toLowerStr fmt) "json" = true →
      ∀ entries, parseJSONGo ext body = .ok entries → entries ≠ [] →
      validateLogBatch ext cID fmt body = .ok entries) ∧
    (2 * 1024 * 1024 + 1 ≤ bigBody.length → cID ≠ "" →
      validateLogBatch ext cID fmt bigBody =
        .error (errValidationFailed "batch too large: must be <= 2MB") ∧
      ingestBatch ext root w cID iKey fmt bigBody st =
        (.error (errValidationFailed "batch too large: must be <= 2MB"), st, []) ∧
      errValidationFailed "batch too large: must be <= 2MB" =
        ⟨"invalid_argument", "ING_1000", "batch too large: must be <= 2MB", 400⟩) := by
  have hmb : maxBatchBytes = 2 * 1024 * 1024 := rfl
  refine ⟨?_, ?_, ?_⟩
  · intro h
    exact readWithLimit_small body (by omega)
  · intro h hc hfmt entries hparse hne
    unfold validateLogBatch
    rw [if_neg hc, readWithLimit_small body (by omega), hfmt]
    simp only [if_true, hparse]
    rw [if_neg hne]
  · intro h hc
    have hval : validateLogBatch ext cID fmt bigBody =
        .error (errValidationFailed "batch too large: must be <= 2MB") := by
      unfold validateLogBatch
      rw [if_neg hc, readWithLimit_large bigBody (by omega)]

    refine ⟨hval, ?_, rfl⟩
    unfold ingestBatch
    rw [hval]

theorem body2MiB_length : body2MiB.length = maxBatchBytes := by
  show (List.replicate maxBatchBytes 48).length = maxBatchBytes
  rw [List.length_replicate]

/-- Witness for `sizeCapBoundary`: a 2 MiB body is read whole and validates
(with a decoder that accepts it), while a 2 MiB + 1 body is rejected with
ING_1000. -/
theorem sizeCapBoundary_witness :
    readWithLimit body2MiB maxBatchBytes = .ok body2MiB ∧
    validateLogBatch ext2MiB "cus-1" "application/json" body2MiB = .ok [sampleEntry] ∧
    validateLogBatch ext2MiB "cus-1" "application/json"
        (List.replicate (2 * 1024 * 1024 + 1) 48) =
      .error (errValidationFailed "batch too large: must be <= 2MB") := by
  have h := sizeCapBoundary ext2MiB "/data" .minute "cus-1" "" "application/json"
    body2MiB (List.replicate (2 * 1024 * 1024 + 1) 48) []
  have hlen : body2MiB.length = 2 * 1024 * 1024 := by
    rw [body2MiB_length]
    decide
  have hparse : parseJSONGo ext2MiB body2MiB = .ok [sampleEntry] := by
    unfold parseJSONGo
    rw [show ext2MiB.jsonArr body2MiB = some [sampleObj] from rfl]
    decide
  refine ⟨h.1 hlen, ?_, ?_⟩
  · exact h.2.1 hlen (by decide) (by decide) [sampleEntry] hparse (by decide)
  · exact (h.2.2 (by simp only [List.length_replicate]; omega) (by decide)).1

-- ===========================================================================
-- C6: the summarizer computes per-window counts
-- ===========================================================================

theorem countPath_cons (w : Wsize) (e : LogEntry) (rest : List LogEntry) (wk k : String) :
    countPath w (e :: rest) wk k =
      (if windowKeyOf w e.receivedAt = wk ∧ pathKeyOf e = k then 1 else 0) +
        countPath w rest wk k := by
  by_cases hc : windowKeyOf w e.receivedAt = wk ∧ pathKeyOf e = k
  · simp [countPath, List.filter_cons, hc]
    ring
  · simp [countPath, List.filter_cons, hc]

theorem countUA_cons (uaFam : String → String) (w : Wsize) (e : LogEntry)
    (rest : List LogEntry) (wk k : String) :
    countUA uaFam w (e :: rest) wk k =
      (if windowKeyOf w e.receivedAt = wk ∧ normalizeUA uaFam e.userAgent = k then 1 else 0) +
        countUA uaFam w rest wk k := by
  by_cases hc : windowKeyOf w e.receivedAt = wk ∧ normalizeUA uaFam e.userAgent = k
  · simp [countUA, List.filter_cons, hc]
    ring
  · simp [countUA, List.filter_cons, hc]

theorem wcPathCount_step (uaFam : String → String) (w : Wsize)
    (m : Alist WindowCounts) (e : LogEntry) (wk k : String) :
    wcPathCount (summarizeStep uaFam w m e) wk k =
      if windowKeyOf w e.receivedAt = wk ∧ pathKeyOf e = k then
        wadd (wcPathCount m wk k) 1
      else wcPathCount m wk k := by
  unfold summarizeStep wcPathCount
  by_cases hwk : windowKeyOf w e.receivedAt = wk
  · rw [hwk, alookup_aupsert_self]
    by_cases hpk : pathKeyOf e = k
    · rw [if_pos ⟨rfl, hpk⟩]
      simp only [Option.getD_some]
      rw [← hpk, ilookup_aupsert_self]
    · rw [if_neg (by simp [hpk])]
      simp only [Option.getD_some]
      rw [ilookup_aupsert_ne _ _ _ _ (by exact fun h => hpk h.symm)]
  · rw [alookup_aupsert_ne _ _ _ _ (by exact fun h => hwk h.symm),
      if_neg (by simp [hwk])]

theorem wcUACount_step (uaFam : String → String) (w : Wsize)
    (m : Alist WindowCounts) (e : LogEntry) (wk k : String) :
    wcUACount (summarizeStep uaFam w m e) wk k =
      if windowKeyOf w e.receivedAt = wk ∧ normalizeUA uaFam e.userAgent = k then
        wadd (wcUACount m wk k) 1
      else wcUACount m wk k := by
  unfold summarizeStep wcUACount
  by_cases hwk : windowKeyOf w e.receivedAt = wk
  · rw [hwk, alookup_aupsert_self]
    by_cases huk : normalizeUA uaFam e.userAgent = k
    · rw [if_pos ⟨rfl, huk⟩]
      simp only [Option.getD_some]
      rw [← huk, ilookup_aupsert_self]
    · rw [if_neg (by simp [huk])]
      simp only [Option.getD_some]
      rw [ilookup_aupsert_ne _ _ _ _ (by exact fun h => huk h.symm)]
  · rw [alookup_aupsert_ne _ _ _ _ (by exact fun h => hwk h.symm),
      if_neg (by simp [hwk])]

theorem summarizeFold_counts (uaFam : String → String) (w : Wsize) (es : List LogEntry) :
    ∀ (m : Alist WindowCounts) (wk k : String) (sP sU : Int),
    wcPathCount m wk k = wrap64 sP →
    wcUACount m wk k = wrap64 sU →
    wcPathCount (es.foldl (summarizeStep uaFam w) m) wk k =
      wrap64 (sP + countPath w es wk k) ∧
    wcUACount (es.foldl (summarizeStep uaFam w) m) wk k =
      wrap64 (sU + countUA uaFam w es wk k) := by
  induction es with
  | nil =>
    intro m wk k sP sU hP hU
    simp [countPath, countUA, hP, hU]
  | cons e rest ih =>
    intro m wk k sP sU hP hU
    have hfold : (e :: rest).foldl (summarizeStep uaFam w) m =
        rest.foldl (summarizeStep uaFam w) (summarizeStep uaFam w m e) := rfl
    have hP' : wcPathCount (summarizeStep uaFam w m e) wk k =
        wrap64 (sP + if windowKeyOf w e.receivedAt = wk ∧ pathKeyOf e = k then 1 else 0) := by
      rw [wcPathCount_step]
      by_cases hc : windowKeyOf w e.receivedAt = wk ∧ pathKeyOf e = k
      · rw [if_pos hc, if_pos hc, hP]
        unfold wadd
        rw [wrap64_wrap64_add]
      · rw [if_neg hc, if_neg hc, hP, add_zero]
    have hU' : wcUACount (summarizeStep uaFam w m e) wk k =
        wrap64 (sU + if windowKeyOf w e.receivedAt = wk ∧
          normalizeUA uaFam e.userAgent = k then 1 else 0) := by
      rw [wcUACount_step]
      by_cases hc : windowKeyOf w e.receivedAt = wk ∧ normalizeUA uaFam e.userAgent = k
      · rw [if_pos hc, if_pos hc, hU]
        unfold wadd
        rw [wrap64_wrap64_add]
      · rw [if_neg hc, if_neg hc, hU, add_zero]
    have := ih (summarizeStep uaFam w m e) wk k
      (sP + if windowKeyOf w e.receivedAt = wk ∧ pathKeyOf e = k then 1 else 0)
      (sU + if windowKeyOf w e.receivedAt = wk ∧
        normalizeUA uaFam e.userAgent = k then 1 else 0) hP' hU'
    rw [hfold]
    constructor
    · rw [this.1, countPath_cons]
      ring_nf
    · rw [this.2, countUA_cons]
      ring_nf

/-- Claim C6 (amended): for every LogBatch and window size, the summary maps
each window key `wk` (the RFC3339 form of the entry's receivedAt, UTC
truncated to the window) and key `k` to the number of entries in that window
whose normalized path key — `upper(method) + " " + path`, as the source
computes it, WITHOUT trimming the method — is `k`, and likewise the number
of entries whose user-agent family (the parser's family name, or the
original string when the family is empty) is `k`; counts are Go int64
values (wrapped, equal to the exact count whenever it is below 2^63). -/
theorem summarizeCountsEntries (uaFam : String → String) (w : Wsize) (b : LogBatch) :
    (∀ wk k, summaryPathCount (summarize uaFam w b) wk k =
      wrap64 (countPath w b.entries wk k)) ∧
    (∀ wk k, summaryUACount (summarize uaFam w b) wk k =
      wrap64 (countUA uaFam w b.entries wk k)) := by
  constructor
  · intro wk k
    have := (summarizeFold_counts uaFam w b.entries [] wk k 0 0
      (by simp [wcPathCount, alookup, ilookup, wrap64])
      (by simp [wcUACount, alookup, ilookup, wrap64])).1
    simpa [summarize, summaryPathCount] using this
  · intro wk k
    have := (summarizeFold_counts uaFam w b.entries [] wk k 0 0
      (by simp [wcPathCount, alookup, ilookup, wrap64])
      (by simp [wcUACount, alookup, ilookup, wrap64])).2
    simpa [summarize, summaryUACount] using this

/-- Claim C6 counterexample: an entry whose method is `" get"` (leading
space). The claim's key `upper(trim(method)) + " " + path` is `"GET /"` and
counts this entry once, but the summarizer does not trim: the count lands
under `" GET /"` and the summary holds `0` at `"GET /"`. -/
theorem summarizerDoesNotTrimMethod :
    summaryPathCount
        (summarize (fun _ => "") .minute ⟨"b", "c", [⟨0, " get", "/", "u"⟩]⟩)
        "1970-01-01T00:00:00Z" "GET /" = 0 ∧
    countClaimedPath .minute [⟨0, " get", "/", "u"⟩] "1970-01-01T00:00:00Z" "GET /" = 1 ∧
    summaryPathCount
        (summarize (fun _ => "") .minute ⟨"b", "c", [⟨0, " get", "/", "u"⟩]⟩)
        "1970-01-01T00:00:00Z" " GET /" = 1 := by
  refine ⟨by decide, by decide, by decide⟩

/-- Witness for `summarizeCountsEntries` at a concrete two-entry batch. -/
theorem summarizeCountsEntries_witness :
    summaryPathCount
        (summarize (fun s => if s = "ua1" then "Chrome" else "") .minute
          ⟨"b1", "cus-1", [⟨sampleInstant, "GET", "/", "ua1"⟩,
            ⟨sampleInstant + 15000000000, "GET", "/", "ua2"⟩]⟩)
        "2025-12-21T14:21:00Z" "GET /" = 2 ∧
    summaryUACount
        (summarize (fun s => if s = "ua1" then "Chrome" else "") .minute
          ⟨"b1", "cus-1", [⟨sampleInstant, "GET", "/", "ua1"⟩,
            ⟨sampleInstant + 15000000000, "GET", "/", "ua2"⟩]⟩)
        "2025-12-21T14:21:00Z" "Chrome" = 1 := by
  have h := summarizeCountsEntries (fun s => if s = "ua1" then "Chrome" else "") .minute
    ⟨"b1", "cus-1", [⟨sampleInstant, "GET", "/", "ua1"⟩,
      ⟨sampleInstant + 15000000000, "GET", "/", "ua2"⟩]⟩
  constructor
  · rw [h.1 "2025-12-21T14:21:00Z" "GET /"]
    decide
  · rw [h.2 "2025-12-21T14:21:00Z" "Chrome"]
    decide

-- ---------------------------------------------------------------------------
-- Sanity checks of the embedded library functions on known values
-- ---------------------------------------------------------------------------

example : cleanPath "a/b/../../../c" = "../c" := by decide
example : cleanPath "/../x" = "/x" := by decide
example : cleanPath "./" = "." := by decide
example : cleanPath "a//b/./" = "a/b" := by decide
example : joinPath "/data" "raw-batches/c/b.json" = "/data/raw-batches/c/b.json" := by decide
example : relPath "/a/b" "/a/c/d" = some "../c/d" := by decide
example : relPath "/a" "/a/b" = some "b" := by decide
example : validateKey "/data" "raw-batches/c/b.json" = .ok () := by decide
example : validateKey "/data" "" = .error .invalidKey := by decide
example : validateKey "/data" "/abs" = .error .invalidKey := by decide
example : validateKey "/data" "a/.." = .error .invalidKey := by decide
example : toRFC3339 0 = "1970-01-01T00:00:00Z" := by decide
example : toRFC3339 (1766326860 * 1000000000) = "2025-12-21T14:21:00Z" := by decide
example : Wsize.minute.formatWindowStart (1766326860 * 1000000000) = "20251221T1421Z" := by decide
example : Wsize.hour.formatWindowStart (1766326860 * 1000000000) = "20251221T14Z" := by decide
example : Wsize.minute.bucketID (1766326860 * 1000000000) = "minute-21" := by decide
example : partitionIndex "minute-03" 8 = 5 := by decide
example : fnv32a (strBytes "minute-03") = 1575793093 := by decide

end LogAnalytics
